import Mathlib

/-!
# Cluster live telemetry: the collector core and its stream adapter

A shallow embedding of `pkg/telemetrystreamer/telemetrystreamer.go` and of the stream
subscription part of `pkg/plugin/plugin.go`.

Modelling decisions.

* A Go channel `chan []Metric` is a handle, a natural number. `make` hands out the handles
  `0, 1, 2, ...` in order (`made` is the next one), `close` records the handle in `closed`.
  Closing a closed channel and sending on a closed channel panic, as in Go.
* A Go map is an association list. `range` visits it in list order; since every theorem
  quantifies over all association lists, every iteration order is covered.
* `metrics map[MetricType][]Metric` is a total function whose default value is the nil slice.
* A `float64` is its 64-bit IEEE 754 pattern. The record type of the client library is not
  part of the repository, so a numeric field of a record is either a Go `int` or a `float64`;
  the conversion `float64(x)` is the identity on a `float64` and rounds an integer to the
  nearest `float64`, ties to even. `fmt.Sprintf("%v", port)` is the decimal rendering
  `toString`.
* The remote client is not part of the repository. A call of `GetWorkingProcesses` answers with
  a pair (records, error), as the Go signature does; the answers of one tick are given by a
  function from the cluster UUID.
* The poll loop, and the callers running next to it, are a state machine over events: the timer
  case of the `select`, the `ctx.Done()` case, a `SubscribeStream` call, a `DescribeStream` call.
  Each event is atomic and a send on an open channel completes (a consumer is receiving).
  The mutex `ts.mu` is a flag: a call that panics between `Lock` and `Unlock` leaves it set,
  and a call that finds it set blocks for ever.
-/

namespace TelemetryStreamer

/-! ## Data model -/

/-- Handle of a `chan []Metric`. -/
abbrev Chan := Nat

/-- Go `type MetricType int32`. -/
abbrev MetricType := Int

def Memory : MetricType := 0
def Connections : MetricType := 1
def AvgThreads : MetricType := 2
def AvgCallTime : MetricType := 3
def SelectionSize : MetricType := 4
def AvgDbCallTime : MetricType := 5
def AvgServerCallTime : MetricType := 6

/-- Go `var deffrequency time.Duration = 50`. -/
def deffrequency : Nat := 50

/-- Go `float64`: an IEEE 754 binary64 value, given by its 64-bit pattern. -/
structure Float64 where
  bits : Nat
deriving DecidableEq, Repr

/-- A numeric field of a record of the client library: a Go `int` (64 bits) or a `float64`. -/
inductive Num where
  | int (i : Int)
  | float (f : Float64)
deriving DecidableEq, Repr

/-- Number of bits of a natural number, with fuel. -/
def bitLenAux : Nat → Nat → Nat
  | 0, _ => 0
  | fuel + 1, n => if n = 0 then 0 else bitLenAux fuel (n / 2) + 1

/-- Number of bits of a natural number: 0 for 0, else the `k` with `2 ^ (k - 1) ≤ n < 2 ^ k`. -/
def bitLen (n : Nat) : Nat := bitLenAux n n

/-- The 53-bit significand of a natural number of more than 53 bits: drop the `sh` low bits,
rounding to nearest, ties to even. -/
def roundShift (n sh : Nat) : Nat :=
  let q := n / 2 ^ sh
  let rem := n % 2 ^ sh
  let half := 2 ^ (sh - 1)
  if half < rem ∨ (rem = half ∧ q % 2 = 1) then q + 1 else q

/-- Go conversion `float64(i)` of an integer: sign bit, biased exponent, and the 52 fraction
bits of the significand, rounded to nearest even when the integer has more than 53 bits (a
significand rounded up to `2 ^ 53` carries into the exponent). -/
def float64OfInt (i : Int) : Float64 :=
  let n := i.natAbs
  if n = 0 then ⟨0⟩
  else
    let len := bitLen n
    let sign := if i < 0 then 2 ^ 63 else 0
    let q := if len ≤ 53 then n * 2 ^ (53 - len) else roundShift n (len - 53)
    ⟨sign + (len + 1022) * 2 ^ 52 + (q - 2 ^ 52)⟩

/-- Go conversion `float64(x)` of a numeric field. -/
def float64 : Num → Float64
  | Num.int i => float64OfInt i
  | Num.float f => f

/-- The integer a `float64` denotes, if it denotes one. -/
def Float64.toInt? (f : Float64) : Option Int :=
  let e := f.bits / 2 ^ 52 % 2 ^ 11
  let frac := f.bits % 2 ^ 52
  let neg := f.bits / 2 ^ 63 % 2 = 1
  let m := 2 ^ 52 + frac
  if e = 0 then (if frac = 0 then some 0 else none)
  else if e = 2047 then none
  else if 1075 ≤ e then
    some (if neg then - ((m * 2 ^ (e - 1075) : Nat) : Int) else ((m * 2 ^ (e - 1075) : Nat) : Int))
  else if m % 2 ^ (1075 - e) = 0 then
    some (if neg then - ((m / 2 ^ (1075 - e) : Nat) : Int) else ((m / 2 ^ (1075 - e) : Nat) : Int))
  else none

/-- Go `type Metric struct`; `Labels` is the label map as an association list. -/
structure Metric where
  Name : String
  Labels : List (String × String)
  Value : Float64
deriving DecidableEq, Repr

/-- The fields of `serialize.ClusterInfo` that the collector reads. -/
structure ClusterInfo where
  UUID : Nat
  Name : String
deriving DecidableEq, Repr

/-- The fields of `serialize.ProcessInfo` that the collector reads. `Pid` is a string in the
client library, so the conversion `string(wpInf.Pid)` is the identity. -/
structure ProcessInfo where
  Pid : String
  Port : Int
  MemorySize : Num
  Connections : Num
  AvgThreads : Num
  AvgCallTime : Num
  SelectionSize : Num
  AvgDbCallTime : Num
  AvgServerCallTime : Num
deriving DecidableEq, Repr

/-- Answer of `ras.GetWorkingProcesses`: the pair (records, err) of the Go call. -/
structure QueryResult where
  procs : List ProcessInfo
  err : Option String
deriving DecidableEq, Repr

/-- Answer of `ras.GetClusters`: the pair (clusters, err) of the Go call. -/
structure ClustersResult where
  clusters : List ClusterInfo
  err : Option String
deriving DecidableEq, Repr

/-- The remote client held in `ts.ras`: its address, the agent credentials it was given and
the number of `Close` calls it has received. -/
structure RasClient where
  url : String
  agent : Option (String × String)
  closes : Nat
deriving DecidableEq, Repr

/-- Go `type telemetryStreamer struct`. `mu` holds while the mutex is locked. `made` and
`closed` record the channels this collector has allocated and closed. -/
structure telemetryStreamer where
  ras : RasClient
  channels : List (Chan × MetricType)
  frequencyMillisec : Nat
  mu : Bool
  made : Nat
  closed : List Chan
deriving DecidableEq, Repr

/-- What the collector does to the outside world. -/
inductive Effect where
  | getClusters
  | getWorkingProcesses (uuid : Nat)
  | logError (msg : String)
  | logInfo (msg : String)
  | send (ch : Chan) (batch : List Metric)
  | rasClose
  | goPanic (msg : String)
  | blocked
deriving DecidableEq, Repr

/-! ## Go maps as association lists -/

/-- Go `m[k]` with the comma-ok form: the value stored under `k`, if any. -/
def mapGet {κ ν : Type} [DecidableEq κ] : List (κ × ν) → κ → Option ν
  | [], _ => none
  | (k1, v) :: rest, k => if k1 = k then some v else mapGet rest k

/-- Go `m[k] = v`: overwrite the entry of `k`, or add one. -/
def mapSet {κ ν : Type} [DecidableEq κ] : List (κ × ν) → κ → ν → List (κ × ν)
  | [], k, v => [(k, v)]
  | (k1, v1) :: rest, k, v => if k1 = k then (k, v) :: rest else (k1, v1) :: mapSet rest k v

/-- Go `delete(m, k)`. -/
def mapDelete {κ ν : Type} [DecidableEq κ] : List (κ × ν) → κ → List (κ × ν)
  | [], _ => []
  | (k1, v1) :: rest, k => if k1 = k then mapDelete rest k else (k1, v1) :: mapDelete rest k

/-- The keys of a map are pairwise distinct. -/
@[reducible] def MapWF {κ ν : Type} (m : List (κ × ν)) : Prop := (m.map Prod.fst).Nodup

/-! ## The collector: subscribe, describe, dispose -/

/-- Go `telemetryStreamer.Dispose`: `ts.ras.Close()`. -/
def Dispose (ts : telemetryStreamer) : telemetryStreamer :=
  { ts with ras := { ts.ras with closes := ts.ras.closes + 1 } }

/-- How a call that does not return ends, with the collector as the call leaves it: a panic,
or a wait for ever on `ts.mu.Lock()`. -/
inductive Halt where
  | panicked (ts : telemetryStreamer) (msg : String)
  | blocked (ts : telemetryStreamer)
deriving DecidableEq, Repr

/-- The collector a call that does not return leaves behind. -/
def Halt.ts : Halt → telemetryStreamer
  | Halt.panicked ts _ => ts
  | Halt.blocked ts => ts

/-- The trace entry of a call that does not return. -/
def Halt.effect : Halt → Effect
  | Halt.panicked _ msg => Effect.goPanic msg
  | Halt.blocked _ => Effect.blocked

/-- Go `telemetryStreamer.SubscribeStream`: `ch := make(chan []Metric)`, then under the mutex
`ts.channels[ch] = mt`. -/
def SubscribeStream (ts : telemetryStreamer) (mt : MetricType) :
    Except Halt (telemetryStreamer × Chan) :=
  let ch := ts.made
  let ts1 := { ts with made := ts.made + 1 }
  if ts1.mu then
    .error (Halt.blocked ts1)
  else
    .ok ({ ts1 with channels := mapSet ts1.channels ch mt }, ch)

/-- Go `telemetryStreamer.DescribeStream`: `ts.mu.Lock(); delete(ts.channels, ch); close(ch);
ts.mu.Unlock()`. `close` of a closed channel panics after the delete has been done, and the
`Unlock`, which is not deferred, is not reached: the mutex stays locked. -/
def DescribeStream (ts : telemetryStreamer) (ch : Chan) : Except Halt telemetryStreamer :=
  if ts.mu then
    .error (Halt.blocked ts)
  else
    let ts1 := { ts with mu := true }
    let ts2 := { ts1 with channels := mapDelete ts1.channels ch }
    if ch ∈ ts2.closed then
      .error (Halt.panicked ts2 "close of closed channel")
    else
      .ok { ts2 with closed := ch :: ts2.closed, mu := false }

/-! ## One tick of the poll loop -/

/-- Go `map[MetricType][]Metric`; a missing key reads as the nil slice. -/
abbrev Metrics := MetricType → List Metric

/-- Go `metrics[k] = append(metrics[k], m)`. -/
def mapAppend (metrics : Metrics) (k : MetricType) (m : Metric) : Metrics :=
  fun k1 => if k1 = k then metrics k ++ [m] else metrics k1

/-- The callback given to `workingProcessesInfo.Each` in `Stream`: seven appends, one per
category, all carrying the same label map. -/
def eachBody (clInf : ClusterInfo) (metrics : Metrics) (wpInf : ProcessInfo) : Metrics :=
  let labels := [("cluster", clInf.Name), ("pid", wpInf.Pid), ("port", toString wpInf.Port)]
  let metrics := mapAppend metrics Memory ⟨"memory", labels, float64 wpInf.MemorySize⟩
  let metrics := mapAppend metrics Connections
    ⟨"connections", labels, float64 wpInf.Connections⟩
  let metrics := mapAppend metrics AvgThreads ⟨"avg_threads", labels, float64 wpInf.AvgThreads⟩
  let metrics := mapAppend metrics AvgCallTime
    ⟨"avg_call_time", labels, float64 wpInf.AvgCallTime⟩
  let metrics := mapAppend metrics SelectionSize
    ⟨"selection_size", labels, float64 wpInf.SelectionSize⟩
  let metrics := mapAppend metrics AvgDbCallTime
    ⟨"avg_db_call_time", labels, float64 wpInf.AvgDbCallTime⟩
  mapAppend metrics AvgServerCallTime
    ⟨"avg_server_call_time", labels, float64 wpInf.AvgServerCallTime⟩

/-- Result of `SendMetric`: the sends that completed, and whether a send panicked. -/
structure SendOut where
  sends : List Effect
  panicked : Bool
deriving DecidableEq, Repr

/-- The loop of `SendMetric` over the registry: `ch <- metrics[mt]`. A send on a closed channel
panics and the rest of the registry is not visited. -/
def sendLoop (closed : List Chan) (metrics : Metrics) : List (Chan × MetricType) → SendOut
  | [] => ⟨[], false⟩
  | (ch, mt) :: rest =>
    if ch ∈ closed then ⟨[], true⟩
    else
      let out := sendLoop closed metrics rest
      ⟨Effect.send ch (metrics mt) :: out.sends, out.panicked⟩

/-- Go `telemetryStreamer.SendMetric`. -/
def SendMetric (ts : telemetryStreamer) (metrics : Metrics) : SendOut :=
  sendLoop ts.closed metrics ts.channels

/-- Result of the body of one tick: its effects in order, the `metrics` map as it stands when
the body ends, and whether the body ended by a panic. -/
structure TickOut where
  effects : List Effect
  metrics : Metrics
  panicked : Bool

/-- The loop `for _, clInf := range сlustersInfo` of `Stream`: query the cluster, log an error
if there is one, run the callback over the records that came back, then call `SendMetric`
(inside the loop, with the map accumulated so far). -/
def clusterLoop (ts : telemetryStreamer) (ras : Nat → QueryResult) :
    List ClusterInfo → Metrics → TickOut
  | [], metrics => ⟨[], metrics, false⟩
  | clInf :: rest, metrics =>
    let res := ras clInf.UUID
    let asked := Effect.getWorkingProcesses clInf.UUID ::
      (match res.err with
       | some e => [Effect.logError e]
       | none => [])
    let metrics1 := res.procs.foldl (eachBody clInf) metrics
    let sent := SendMetric ts metrics1
    if sent.panicked then
      ⟨asked ++ sent.sends, metrics1, true⟩
    else
      let out := clusterLoop ts ras rest metrics1
      ⟨asked ++ sent.sends ++ out.effects, out.metrics, out.panicked⟩

/-- The timer case of the `select` in `Stream`: skip when there is no subscription, else build
a fresh `metrics` map and run the cluster loop. -/
def tick (ts : telemetryStreamer) (clustersInfo : List ClusterInfo)
    (ras : Nat → QueryResult) : TickOut :=
  if ts.channels.length = 0 then ⟨[], fun _ => [], false⟩
  else clusterLoop ts ras clustersInfo (fun _ => [])

/-! ## The poll loop and its callers as a state machine -/

/-- The goroutine running `Stream` together with the collector it works on. `stopped` holds
once `Stream` has returned; `trace` lists the effects so far. -/
structure Run where
  ts : telemetryStreamer
  clustersInfo : List ClusterInfo
  stopped : Bool
  trace : List Effect

/-- Entry of `Stream`: `GetClusters` once, an error is logged and the loop is entered. -/
def StreamBegin (ts : telemetryStreamer) (res : ClustersResult) : Run :=
  { ts := ts
    clustersInfo := res.clusters
    stopped := false
    trace := Effect.getClusters ::
      (match res.err with
       | some e => [Effect.logError e]
       | none => []) }

/-- What can happen next in a run: the timer case of the `select` fires (with the answers the
remote gives during that tick), the `ctx.Done()` case fires, a caller subscribes, a caller
describes a handle. -/
inductive Event where
  | tick (ras : Nat → QueryResult)
  | done
  | subscribe (mt : MetricType)
  | describe (ch : Chan)

/-- One event. A tick that panics is recovered by the deferred `recover()`, after which the
deferred `Dispose` runs and `Stream` returns; `ctx.Done()` logs, leaves the loop and runs the
same deferred calls. Timer and cancellation events mean nothing once `Stream` has returned.
A subscribe or describe that does not return (a panic, or a wait for ever on the mutex)
leaves the collector as that call left it and is recorded in the trace; the run goes on with
the other goroutines, which covers every shorter run as well. -/
def step (r : Run) : Event → Run
  | .tick ras =>
    if r.stopped then r
    else
      let out := tick r.ts r.clustersInfo ras
      if out.panicked then
        { r with
          ts := Dispose r.ts
          stopped := true
          trace := r.trace ++ out.effects ++ [Effect.goPanic "send on closed channel", Effect.rasClose] }
      else
        { r with trace := r.trace ++ out.effects }
  | .done =>
    if r.stopped then r
    else
      { r with
        ts := Dispose r.ts
        stopped := true
        trace := r.trace ++ [Effect.logInfo "TelemetryStreamer: parrent ctx done", Effect.rasClose] }
  | .subscribe mt =>
    match SubscribeStream r.ts mt with
    | .ok p => { r with ts := p.1 }
    | .error h => { r with ts := h.ts, trace := r.trace ++ [h.effect] }
  | .describe ch =>
    match DescribeStream r.ts ch with
    | .ok ts1 => { r with ts := ts1 }
    | .error h => { r with ts := h.ts, trace := r.trace ++ [h.effect] }

/-- A sequence of events. -/
def run (r : Run) (evs : List Event) : Run := evs.foldl step r

/-! ## The singleton -/

/-- The package-level variables `instance` and `once`, the collectors allocated so far (the
address of a collector is its index) and the contexts of the poll loops started so far. -/
structure Globals where
  inst : Option Nat
  once : Bool
  heap : List telemetryStreamer
  loops : List Nat
deriving DecidableEq, Repr

/-- State of the package before the first call: `instance = nil`, `once` unused. -/
def initGlobals : Globals := ⟨none, false, [], []⟩

/-- The call `rasclient.NewClient(url)`. -/
def NewClient (url : String) : RasClient := ⟨url, none, 0⟩

/-- The call `ras.AuthenticateAgent(usr, pass)`. -/
def AuthenticateAgent (c : RasClient) (usr pass : String) : RasClient :=
  { c with agent := some (usr, pass) }

/-- The collector that the function given to `once.Do` builds and authenticates. -/
def newInstance (url usr pass : String) : telemetryStreamer :=
  { ras := AuthenticateAgent (NewClient url) usr pass
    channels := []
    frequencyMillisec := deffrequency
    mu := false
    made := 0
    closed := [] }

/-- Go `GetInstance`: `once.Do` runs its function on the first call only; the function stores
a new collector in `instance`, authenticates it and starts `Stream` in a goroutine bound to
`ctx`. Every call returns `instance`. -/
def GetInstance (g : Globals) (ctx : Nat) (url usr pass : String) : Globals × Option Nat :=
  let g1 : Globals :=
    if g.once then g
    else
      { inst := some g.heap.length
        once := true
        heap := g.heap ++ [newInstance url usr pass]
        loops := g.loops ++ [ctx] }
  (g1, g1.inst)

/-- Arguments of one `GetInstance` call. -/
structure Call where
  ctx : Nat
  url : String
  usr : String
  pass : String
deriving DecidableEq, Repr

/-- A sequence of `GetInstance` calls; the second component lists what each call returned. -/
def getInstances : Globals → List Call → Globals × List (Option Nat)
  | g, [] => (g, [])
  | g, c :: cs =>
    let r := GetInstance g c.ctx c.url c.usr c.pass
    let rest := getInstances r.1 cs
    (rest.1, r.2 :: rest.2)

/-! ## Vocabulary of the properties -/

/-- The seven categories, in declaration order. -/
def categories : List MetricType :=
  [Memory, Connections, AvgThreads, AvgCallTime, SelectionSize, AvgDbCallTime, AvgServerCallTime]

/-- Name of a category. -/
def categoryName (mt : MetricType) : String :=
  if mt = Memory then "memory"
  else if mt = Connections then "connections"
  else if mt = AvgThreads then "avg_threads"
  else if mt = AvgCallTime then "avg_call_time"
  else if mt = SelectionSize then "selection_size"
  else if mt = AvgDbCallTime then "avg_db_call_time"
  else if mt = AvgServerCallTime then "avg_server_call_time"
  else ""

/-- Field of a process record that a category reports. -/
def categoryField (mt : MetricType) (wpInf : ProcessInfo) : Num :=
  if mt = Memory then wpInf.MemorySize
  else if mt = Connections then wpInf.Connections
  else if mt = AvgThreads then wpInf.AvgThreads
  else if mt = AvgCallTime then wpInf.AvgCallTime
  else if mt = SelectionSize then wpInf.SelectionSize
  else if mt = AvgDbCallTime then wpInf.AvgDbCallTime
  else if mt = AvgServerCallTime then wpInf.AvgServerCallTime
  else Num.int 0

/-- Labels of a record: cluster name, process id, port. -/
def recordLabels (clInf : ClusterInfo) (wpInf : ProcessInfo) : List (String × String) :=
  [("cluster", clInf.Name), ("pid", wpInf.Pid), ("port", toString wpInf.Port)]

/-- The metric of a category for one record of one cluster. -/
def categoryMetric (mt : MetricType) (clInf : ClusterInfo) (wpInf : ProcessInfo) : Metric :=
  ⟨categoryName mt, recordLabels clInf wpInf, float64 (categoryField mt wpInf)⟩

/-- The metrics of a category over a list of clusters and the answers of one tick. -/
def categoryBatch (mt : MetricType) (ras : Nat → QueryResult) (cls : List ClusterInfo) :
    List Metric :=
  cls.flatMap (fun clInf => (ras clInf.UUID).procs.map (categoryMetric mt clInf))

/-- Every metric stored under a key carries the name of that key. -/
def NamedByKey (metrics : Metrics) : Prop :=
  ∀ k, ∀ m ∈ metrics k, k ∈ categories ∧ m.Name = categoryName k

/-- No registered handle is closed: every send of `SendMetric` completes. -/
@[reducible] def Deliverable (ts : telemetryStreamer) : Prop :=
  ∀ p ∈ ts.channels, p.1 ∉ ts.closed

/-- The batches sent to a handle, in order. -/
def batchesTo (h : Chan) : List Effect → List (List Metric)
  | [] => []
  | Effect.send ch batch :: rest => if ch = h then batch :: batchesTo h rest else batchesTo h rest
  | _ :: rest => batchesTo h rest

/-- An effect that belongs to a tick of the poll loop: a process query or a delivery. -/
def isTickEffect : Effect → Bool
  | Effect.getWorkingProcesses _ => true
  | Effect.send _ _ => true
  | _ => false

/-- The remote connection has been closed by the poll loop once if `Stream` has returned, and
not at all if it is still running; `base` counts the closes that preceded the loop. -/
def ClosedOnExit (base : Nat) (r : Run) : Prop :=
  r.ts.ras.closes = base + (if r.stopped then 1 else 0) ∧
  r.trace.count Effect.rasClose = (if r.stopped then 1 else 0)

/-- State invariant of a collector: registry keys are pairwise distinct, every registered
handle has been allocated and is open, every closed handle has been allocated. -/
def Sound (ts : telemetryStreamer) : Prop :=
  MapWF ts.channels ∧ (∀ p ∈ ts.channels, p.1 < ts.made ∧ p.1 ∉ ts.closed) ∧
  (∀ c ∈ ts.closed, c < ts.made)

/-- The integer values of a batch, where its metrics denote integers. -/
def batchInts (batch : List Metric) : List (Option Int) :=
  batch.map (fun m => m.Value.toInt?)

/-- An event a caller can produce: a describe is of a handle that `SubscribeStream` returned. -/
def Admissible (r : Run) : Event → Prop
  | Event.describe ch => ch < r.ts.made
  | _ => True

/-- A failed query, as the remote client reports it: an error and no records. -/
@[reducible] def Failed (q : QueryResult) : Prop := q.err ≠ none ∧ q.procs = []

/-! ## Sample data -/

/-- A collector with one `Memory` and one `Connections` subscription (handles 0 and 1), as
two `SubscribeStream` calls on a new collector leave it. -/
def sampleStreamer : telemetryStreamer :=
  { ras := ⟨"ras:1545", some ("admin", "admin"), 0⟩
    channels := [(0, Memory), (1, Connections)]
    frequencyMillisec := 50
    mu := false
    made := 2
    closed := [] }

def sampleMain : ClusterInfo := ⟨7, "main"⟩
def sampleBackup : ClusterInfo := ⟨8, "backup"⟩
def sampleDown : ClusterInfo := ⟨9, "down"⟩

/-- A `float64` field holding 1.5. -/
def sampleAvg : Num := Num.float ⟨0x3FF8000000000000⟩

def sampleRecords : List ProcessInfo :=
  [⟨"4101", 1560, Num.int 100, Num.int 5, sampleAvg, sampleAvg, Num.int 0, sampleAvg, sampleAvg⟩,
   ⟨"4102", 1561, Num.int 200, Num.int 9, sampleAvg, sampleAvg, Num.int 0, sampleAvg, sampleAvg⟩]

/-- A record whose memory size, a Go `int`, is `2 ^ 53 + 1`. -/
def sampleHuge : ProcessInfo :=
  ⟨"4103", 1563, Num.int (2 ^ 53 + 1), Num.int 1, sampleAvg, sampleAvg, Num.int 0, sampleAvg,
    sampleAvg⟩

/-- The sample collector after `DescribeStream` of its handle 0. -/
def sampleDescribed : telemetryStreamer :=
  { sampleStreamer with channels := [(1, Connections)], closed := [0] }

/-- Answers of one tick: the one record `sampleHuge`, for every cluster. -/
def sampleHugeRas : Nat → QueryResult := fun _ => ⟨[sampleHuge], none⟩

/-- Answers of one tick: two records for `main`, one for `backup`, a failure otherwise. -/
def sampleRas : Nat → QueryResult := fun uuid =>
  if uuid = 7 then ⟨sampleRecords, none⟩
  else if uuid = 8 then
    ⟨[⟨"5201", 1562, Num.int 300, Num.int 2, sampleAvg, sampleAvg, Num.int 0, sampleAvg,
      sampleAvg⟩], none⟩
  else ⟨[], some "timeout"⟩

end TelemetryStreamer

namespace Plugin

/-! ## The stream adapter of the plugin -/

/-- Go `backend.SubscribeStreamStatus`. -/
inductive SubscribeStreamStatus where
  | OK
  | NotFound
  | PermissionDenied
deriving DecidableEq, Repr

/-- Go `type Datasource struct`: the collector `d.ts` refers to, and the table `d.streams`. -/
structure Datasource where
  ts : TelemetryStreamer.telemetryStreamer
  streams : List (String × TelemetryStreamer.Chan)
deriving DecidableEq, Repr

/-- Body shared by the seven cases of the `switch` in `SubscribeStream`: subscribe with the
core unless the table already has the path, then answer OK. When the core call does not
return, neither does this one, and the table is not written. -/
def subscribeCase (d : Datasource) (path : String) (mt : TelemetryStreamer.MetricType) :
    Except TelemetryStreamer.Halt (Datasource × SubscribeStreamStatus) :=
  match TelemetryStreamer.mapGet d.streams path with
  | some _ => .ok (d, SubscribeStreamStatus.OK)
  | none =>
    match TelemetryStreamer.SubscribeStream d.ts mt with
    | .ok sub =>
      .ok ({ ts := sub.1, streams := TelemetryStreamer.mapSet d.streams path sub.2 },
        SubscribeStreamStatus.OK)
    | .error h => .error h

/-- Go `Datasource.SubscribeStream`: the `switch req.Path`; the default case leaves the
status at permission denied. -/
def SubscribeStream (d : Datasource) (path : String) :
    Except TelemetryStreamer.Halt (Datasource × SubscribeStreamStatus) :=
  if path = "memory" then subscribeCase d path TelemetryStreamer.Memory
  else if path = "connections" then subscribeCase d path TelemetryStreamer.Connections
  else if path = "avg_threads" then subscribeCase d path TelemetryStreamer.AvgThreads
  else if path = "avg_call_time" then subscribeCase d path TelemetryStreamer.AvgCallTime
  else if path = "selection_size" then subscribeCase d path TelemetryStreamer.SelectionSize
  else if path = "avg_db_call_time" then subscribeCase d path TelemetryStreamer.AvgDbCallTime
  else if path = "avg_server_call_time" then
    subscribeCase d path TelemetryStreamer.AvgServerCallTime
  else .ok (d, SubscribeStreamStatus.PermissionDenied)

/-- The loop of `Datasource.Dispose` over the table: `d.ts.DescribeStream(stream)`. -/
def disposeLoop (ts : TelemetryStreamer.telemetryStreamer) :
    List (String × TelemetryStreamer.Chan) →
      Except TelemetryStreamer.Halt TelemetryStreamer.telemetryStreamer
  | [] => .ok ts
  | (_, ch) :: rest =>
    match TelemetryStreamer.DescribeStream ts ch with
    | .ok ts1 => disposeLoop ts1 rest
    | .error h => .error h

/-- Go `Datasource.Dispose`: every stored handle is described; the table keeps its entries. -/
def Dispose (d : Datasource) : Except TelemetryStreamer.Halt Datasource :=
  match disposeLoop d.ts d.streams with
  | .ok ts1 => .ok { d with ts := ts1 }
  | .error h => .error h

/-- The `ctx.Done()` case of `Datasource.RunStream`, for a path the table holds:
`d.ts.DescribeStream(d.streams[req.Path]); delete(d.streams, req.Path)`. For a path the table
does not hold, the nil channel is described: after the lock, `close` of it panics. -/
def RunStreamDone (d : Datasource) (path : String) : Except TelemetryStreamer.Halt Datasource :=
  match TelemetryStreamer.mapGet d.streams path with
  | some ch =>
    match TelemetryStreamer.DescribeStream d.ts ch with
    | .ok ts1 => .ok { ts := ts1, streams := TelemetryStreamer.mapDelete d.streams path }
    | .error h => .error h
  | none =>
    if d.ts.mu then .error (TelemetryStreamer.Halt.blocked d.ts)
    else .error (TelemetryStreamer.Halt.panicked { d.ts with mu := true } "close of nil channel")

/-- The stream paths the adapter knows. -/
def knownPaths : List String :=
  ["memory", "connections", "avg_threads", "avg_call_time", "selection_size",
    "avg_db_call_time", "avg_server_call_time"]

/-- The category whose name is the path. -/
def pathCategory (path : String) : Option TelemetryStreamer.MetricType :=
  (TelemetryStreamer.categories.find? (fun mt => TelemetryStreamer.categoryName mt = path))

/-- A new adapter over a new collector, as `NewDatasource` builds it. -/
def sampleDatasource : Datasource :=
  ⟨TelemetryStreamer.newInstance "ras:1545" "admin" "admin", []⟩

/-- The sample adapter after `SubscribeStream` of the path memory. -/
def sampleSubscribed : Datasource :=
  ⟨{ TelemetryStreamer.newInstance "ras:1545" "admin" "admin" with
      made := 1, channels := [(0, TelemetryStreamer.Memory)] },
    [("memory", 0)]⟩

/-- The sample adapter after `SubscribeStream` of the path memory and then `Dispose`. -/
def sampleDisposed : Datasource :=
  ⟨{ TelemetryStreamer.newInstance "ras:1545" "admin" "admin" with
      made := 1, channels := [], closed := [0] },
    [("memory", 0)]⟩

end Plugin

namespace TelemetryStreamer

/-! ## The conversion to float64 -/

theorem bitLenAux_zero (fuel : Nat) : bitLenAux fuel 0 = 0 := by
  cases fuel <;> simp [bitLenAux]

theorem bitLenAux_spec (fuel n : Nat) (hn : n ≠ 0) (hfuel : n ≤ fuel) :
    1 ≤ bitLenAux fuel n ∧ 2 ^ (bitLenAux fuel n - 1) ≤ n ∧ n < 2 ^ bitLenAux fuel n := by
  induction fuel generalizing n with
  | zero => omega
  | succ fuel ih =>
    simp only [bitLenAux, hn, if_false]
    by_cases h2 : n / 2 = 0
    · rw [h2, bitLenAux_zero]
      have : n = 1 := by omega
      subst this
      simp
    · obtain ⟨h1, hlo, hhi⟩ := ih (n / 2) h2 (by omega)
      refine ⟨by omega, ?_, ?_⟩
      · have hpow : 2 ^ (bitLenAux fuel (n / 2) + 1 - 1)
            = 2 * 2 ^ (bitLenAux fuel (n / 2) - 1) := by
          have : bitLenAux fuel (n / 2) + 1 - 1 = (bitLenAux fuel (n / 2) - 1) + 1 := by omega
          rw [this, pow_succ]
          ring
        rw [hpow]
        omega
      · rw [pow_succ]
        omega

theorem bitLen_spec (n : Nat) (hn : n ≠ 0) :
    1 ≤ bitLen n ∧ 2 ^ (bitLen n - 1) ≤ n ∧ n < 2 ^ bitLen n :=
  bitLenAux_spec n n hn (Nat.le_refl n)

theorem toInt_encode (n len sign : Nat) (hsign : sign = 0 ∨ sign = 2 ^ 63)
    (hlen1 : 1 ≤ len) (hlen : len ≤ 53) (hlo : 2 ^ (len - 1) ≤ n) (hhi : n < 2 ^ len) :
    Float64.toInt? ⟨sign + (len + 1022) * 2 ^ 52 + (n * 2 ^ (53 - len) - 2 ^ 52)⟩
      = some (if sign = 2 ^ 63 then - (n : Int) else (n : Int)) := by
  have hq1 : 2 ^ 52 ≤ n * 2 ^ (53 - len) := by
    calc 2 ^ 52 = 2 ^ (len - 1) * 2 ^ (53 - len) := by
          rw [← pow_add]; congr 1; omega
      _ ≤ n * 2 ^ (53 - len) := Nat.mul_le_mul_right _ hlo
  have hq2 : n * 2 ^ (53 - len) < 2 ^ 53 := by
    calc n * 2 ^ (53 - len) < 2 ^ len * 2 ^ (53 - len) :=
          Nat.mul_lt_mul_of_pos_right hhi (Nat.pow_pos (by norm_num))
      _ = 2 ^ 53 := by rw [← pow_add]; congr 1; omega
  generalize hq : n * 2 ^ (53 - len) = q at hq1 hq2
  have he : (sign + (len + 1022) * 2 ^ 52 + (q - 2 ^ 52)) / 2 ^ 52 % 2 ^ 11 = len + 1022 := by
    rcases hsign with h | h <;> subst h <;> norm_num at hq1 hq2 ⊢ <;> omega
  have hf : (sign + (len + 1022) * 2 ^ 52 + (q - 2 ^ 52)) % 2 ^ 52 = q - 2 ^ 52 := by
    rcases hsign with h | h <;> subst h <;> norm_num at hq1 hq2 ⊢ <;> omega
  have hs : (sign + (len + 1022) * 2 ^ 52 + (q - 2 ^ 52)) / 2 ^ 63 % 2 = 1 ↔ sign = 2 ^ 63 := by
    rcases hsign with h | h <;> subst h <;> norm_num at hq1 hq2 ⊢ <;> omega
  have hm : 2 ^ 52 + (q - 2 ^ 52) = q := by omega
  simp only [Float64.toInt?, he, hf, hs, hm]
  have h0 : ¬ (len + 1022 = 0) := by omega
  have h1 : ¬ (len + 1022 = 2047) := by omega
  simp only [h0, h1, if_false]
  by_cases h53 : len = 53
  · subst h53
    have hqn : q = n := by simpa using hq.symm
    subst hqn
    simp
  · have hlt : ¬ (1075 ≤ len + 1022) := by omega
    have hsh : 1075 - (len + 1022) = 53 - len := by omega
    simp only [hlt, if_false, hsh]
    have hmod : q % 2 ^ (53 - len) = 0 := by
      rw [← hq]; exact Nat.mul_mod_left _ _
    have hdiv : q / 2 ^ (53 - len) = n := by
      rw [← hq]; exact Nat.mul_div_cancel _ (Nat.pow_pos (by norm_num))
    simp [hmod, hdiv]

theorem float64OfInt_exact (i : Int) (hi : i.natAbs ≤ 2 ^ 53) :
    (float64OfInt i).toInt? = some i := by
  by_cases h0 : i.natAbs = 0
  · have : i = 0 := by omega
    subst this
    decide
  · by_cases hmax : i.natAbs = 2 ^ 53
    · have : i = 2 ^ 53 ∨ i = - 2 ^ 53 := by omega
      rcases this with h | h <;> subst h <;> decide
    · have hlt : i.natAbs < 2 ^ 53 := by omega
      obtain ⟨h1, hlo, hhi⟩ := bitLen_spec i.natAbs h0
      have hlen : bitLen i.natAbs ≤ 53 := by
        by_contra hgt
        have h54 : 2 ^ 53 ≤ 2 ^ (bitLen i.natAbs - 1) :=
          Nat.pow_le_pow_right (by norm_num) (by omega)
        omega
      have key := toInt_encode i.natAbs (bitLen i.natAbs) (if i < 0 then 2 ^ 63 else 0)
        (by split <;> simp) h1 hlen hlo hhi
      simp only [float64OfInt, h0, if_false, hlen, if_true]
      rw [key]
      by_cases hneg : i < 0
      · simp only [hneg, if_true]
        congr 1
        omega
      · simp only [hneg, if_false]
        have : ¬ ((0 : Nat) = 2 ^ 63) := by norm_num
        simp only [this, if_false]
        congr 1
        omega

end TelemetryStreamer

namespace TelemetryStreamer

/-! ## Association lists -/

theorem mapGet_mapSet_self {κ ν : Type} [DecidableEq κ] (m : List (κ × ν)) (k : κ) (v : ν) :
    mapGet (mapSet m k v) k = some v := by
  induction m with
  | nil => simp [mapSet, mapGet]
  | cons p rest ih =>
    obtain ⟨k1, v1⟩ := p
    by_cases hk : k1 = k
    · simp [mapSet, mapGet, hk]
    · simp [mapSet, mapGet, hk, ih]

theorem mapGet_mapDelete_self {κ ν : Type} [DecidableEq κ] (m : List (κ × ν)) (k : κ) :
    mapGet (mapDelete m k) k = none := by
  induction m with
  | nil => simp [mapDelete, mapGet]
  | cons p rest ih =>
    obtain ⟨k1, v1⟩ := p
    by_cases hk : k1 = k
    · simp [mapDelete, hk, ih]
    · simp [mapDelete, mapGet, hk, ih]

theorem mapGet_eq_of_mem {κ ν : Type} [DecidableEq κ] (m : List (κ × ν)) (k : κ) (v : ν)
    (hwf : MapWF m) (hmem : (k, v) ∈ m) : mapGet m k = some v := by
  induction m with
  | nil => simp at hmem
  | cons p rest ih =>
    obtain ⟨k1, v1⟩ := p
    simp only [MapWF, List.map_cons, List.nodup_cons] at hwf
    rcases List.mem_cons.mp hmem with h | h
    · cases h
      simp [mapGet]
    · have hk : k1 ≠ k := by
        rintro rfl
        exact hwf.1 (List.mem_map.mpr ⟨(k1, v), h, rfl⟩)
      simp only [mapGet, hk, if_false]
      exact ih hwf.2 h

/-! ## The callback of the cluster loop -/

theorem mem_categories (k : MetricType) :
    k ∈ categories ↔ k = 0 ∨ k = 1 ∨ k = 2 ∨ k = 3 ∨ k = 4 ∨ k = 5 ∨ k = 6 := by
  simp [categories, Memory, Connections, AvgThreads, AvgCallTime, SelectionSize, AvgDbCallTime,
    AvgServerCallTime]

theorem categoryName_injective (a b : MetricType) (ha : a ∈ categories) (hb : b ∈ categories)
    (hname : categoryName a = categoryName b) : a = b := by
  rw [mem_categories] at ha hb
  rcases ha with h | h | h | h | h | h | h <;> subst h <;>
    rcases hb with h | h | h | h | h | h | h <;> subst h <;>
    first
      | rfl
      | (exfalso; revert hname; decide)

theorem eachBody_category (clInf : ClusterInfo) (metrics : Metrics) (wpInf : ProcessInfo)
    (k : MetricType) (hk : k ∈ categories) :
    eachBody clInf metrics wpInf k = metrics k ++ [categoryMetric k clInf wpInf] := by
  rw [mem_categories] at hk
  rcases hk with h | h | h | h | h | h | h <;> subst h <;>
    simp [eachBody, mapAppend, categoryMetric, categoryName, categoryField, recordLabels, Memory,
      Connections, AvgThreads, AvgCallTime, SelectionSize, AvgDbCallTime, AvgServerCallTime]

theorem eachBody_other (clInf : ClusterInfo) (metrics : Metrics) (wpInf : ProcessInfo)
    (k : MetricType) (hk : k ∉ categories) :
    eachBody clInf metrics wpInf k = metrics k := by
  rw [mem_categories] at hk
  simp only [not_or] at hk
  obtain ⟨h0, h1, h2, h3, h4, h5, h6⟩ := hk
  simp [eachBody, mapAppend, Memory, Connections, AvgThreads, AvgCallTime, SelectionSize,
    AvgDbCallTime, AvgServerCallTime, h0, h1, h2, h3, h4, h5, h6]

theorem foldl_eachBody_category (clInf : ClusterInfo) (rs : List ProcessInfo) (metrics : Metrics)
    (k : MetricType) (hk : k ∈ categories) :
    rs.foldl (eachBody clInf) metrics k = metrics k ++ rs.map (categoryMetric k clInf) := by
  induction rs generalizing metrics with
  | nil => simp
  | cons r rs ih =>
    rw [List.foldl_cons, ih, eachBody_category _ _ _ _ hk]
    simp

theorem foldl_eachBody_other (clInf : ClusterInfo) (rs : List ProcessInfo) (metrics : Metrics)
    (k : MetricType) (hk : k ∉ categories) :
    rs.foldl (eachBody clInf) metrics k = metrics k := by
  induction rs generalizing metrics with
  | nil => simp
  | cons r rs ih =>
    rw [List.foldl_cons, ih, eachBody_other _ _ _ _ hk]

theorem namedByKey_empty : NamedByKey (fun _ => []) := by
  intro k m hm
  simp at hm

theorem namedByKey_foldl (clInf : ClusterInfo) (rs : List ProcessInfo) (metrics : Metrics)
    (hn : NamedByKey metrics) : NamedByKey (rs.foldl (eachBody clInf) metrics) := by
  intro k m hm
  by_cases hk : k ∈ categories
  · rw [foldl_eachBody_category _ _ _ _ hk] at hm
    rcases List.mem_append.mp hm with h | h
    · exact hn k m h
    · obtain ⟨r, _, hr⟩ := List.mem_map.mp h
      subst hr
      exact ⟨hk, rfl⟩
  · rw [foldl_eachBody_other _ _ _ _ hk] at hm
    exact hn k m hm

end TelemetryStreamer

namespace TelemetryStreamer

/-! ## Delivery -/

theorem mem_batchesTo (h : Chan) (batch : List Metric) (effs : List Effect) :
    batch ∈ batchesTo h effs ↔ Effect.send h batch ∈ effs := by
  induction effs with
  | nil => simp [batchesTo]
  | cons e rest ih =>
    cases e with
    | send ch b =>
      by_cases hc : ch = h
      · subst hc
        simp only [batchesTo, if_true, List.mem_cons, ih, Effect.send.injEq, true_and]
      · have hne : ¬ (h = ch) := fun hh => hc hh.symm
        simp [batchesTo, hc, hne, ih]
    | getClusters => simp [batchesTo, ih]
    | getWorkingProcesses u => simp [batchesTo, ih]
    | logError msg => simp [batchesTo, ih]
    | logInfo msg => simp [batchesTo, ih]
    | rasClose => simp [batchesTo, ih]
    | goPanic msg => simp [batchesTo, ih]
    | blocked => simp [batchesTo, ih]

theorem batchesTo_append (h : Chan) (xs ys : List Effect) :
    batchesTo h (xs ++ ys) = batchesTo h xs ++ batchesTo h ys := by
  induction xs with
  | nil => simp [batchesTo]
  | cons e rest ih =>
    cases e with
    | send ch b =>
      by_cases hc : ch = h
      · simp [batchesTo, hc, ih]
      · simp [batchesTo, hc, ih]
    | getClusters => simp [batchesTo, ih]
    | getWorkingProcesses u => simp [batchesTo, ih]
    | logError msg => simp [batchesTo, ih]
    | logInfo msg => simp [batchesTo, ih]
    | rasClose => simp [batchesTo, ih]
    | goPanic msg => simp [batchesTo, ih]
    | blocked => simp [batchesTo, ih]

theorem sendLoop_sends_mem (closed : List Chan) (metrics : Metrics)
    (chans : List (Chan × MetricType)) (e : Effect)
    (he : e ∈ (sendLoop closed metrics chans).sends) :
    ∃ p ∈ chans, e = Effect.send p.1 (metrics p.2) := by
  induction chans with
  | nil => simp [sendLoop] at he
  | cons p rest ih =>
    obtain ⟨ch, mt⟩ := p
    by_cases hc : ch ∈ closed
    · simp [sendLoop, hc] at he
    · simp only [sendLoop, hc, if_false, List.mem_cons] at he
      rcases he with h | h
      · exact ⟨(ch, mt), List.mem_cons_self _ _, h⟩
      · obtain ⟨q, hq, hqe⟩ := ih h
        exact ⟨q, List.mem_cons_of_mem _ hq, hqe⟩

theorem sendLoop_deliverable (closed : List Chan) (metrics : Metrics)
    (chans : List (Chan × MetricType)) (hopen : ∀ p ∈ chans, p.1 ∉ closed) :
    sendLoop closed metrics chans
      = ⟨chans.map (fun p => Effect.send p.1 (metrics p.2)), false⟩ := by
  induction chans with
  | nil => simp [sendLoop]
  | cons p rest ih =>
    obtain ⟨ch, mt⟩ := p
    have hc : ch ∉ closed := hopen (ch, mt) (List.mem_cons_self _ _)
    have hrest : ∀ q ∈ rest, q.1 ∉ closed := fun q hq => hopen q (List.mem_cons_of_mem _ hq)
    simp [sendLoop, hc, ih hrest]

theorem SendMetric_deliverable (ts : telemetryStreamer) (metrics : Metrics)
    (hdel : Deliverable ts) :
    SendMetric ts metrics = ⟨ts.channels.map (fun p => Effect.send p.1 (metrics p.2)), false⟩ :=
  sendLoop_deliverable ts.closed metrics ts.channels hdel

theorem batchesTo_sends (h : Chan) (A : MetricType) (metrics : Metrics)
    (chans : List (Chan × MetricType)) (hwf : MapWF chans) (hreg : mapGet chans h = some A) :
    batchesTo h (chans.map (fun p => Effect.send p.1 (metrics p.2))) = [metrics A] := by
  induction chans with
  | nil => simp [mapGet] at hreg
  | cons p rest ih =>
    obtain ⟨ch, mt⟩ := p
    simp only [MapWF, List.map_cons, List.nodup_cons] at hwf
    by_cases hc : ch = h
    · subst hc
      simp only [mapGet, if_true, Option.some.injEq] at hreg
      subst hreg
      have hnone : batchesTo ch (rest.map (fun p => Effect.send p.1 (metrics p.2))) = [] := by
        cases hb : batchesTo ch (rest.map (fun p => Effect.send p.1 (metrics p.2))) with
        | nil => rfl
        | cons b bs =>
          exfalso
          have hmem : b ∈ batchesTo ch (rest.map (fun p => Effect.send p.1 (metrics p.2))) := by
            rw [hb]; exact List.mem_cons_self _ _
          rw [mem_batchesTo] at hmem
          obtain ⟨q, hq, hqe⟩ := List.mem_map.mp hmem
          simp only [Effect.send.injEq] at hqe
          exact hwf.1 (List.mem_map.mpr ⟨q, hq, hqe.1⟩)
      simp [batchesTo, hnone]
    · simp only [mapGet, hc, if_false] at hreg
      simp [batchesTo, hc, ih hwf.2 hreg]

/-! ## The cluster loop -/

theorem clusterLoop_send_named (ts : telemetryStreamer) (ras : Nat → QueryResult)
    (cls : List ClusterInfo) (metrics : Metrics) (hn : NamedByKey metrics)
    (ch : Chan) (batch : List Metric)
    (he : Effect.send ch batch ∈ (clusterLoop ts ras cls metrics).effects) :
    ∃ mt, (ch, mt) ∈ ts.channels ∧ ∀ m ∈ batch, mt ∈ categories ∧ m.Name = categoryName mt := by
  induction cls generalizing metrics with
  | nil => simp [clusterLoop] at he
  | cons clInf rest ih =>
    have hn1 := namedByKey_foldl clInf (ras clInf.UUID).procs metrics hn
    have hsent : ∀ e ∈ (SendMetric ts ((ras clInf.UUID).procs.foldl (eachBody clInf) metrics)).sends,
        e = Effect.send ch batch →
        ∃ mt, (ch, mt) ∈ ts.channels ∧ ∀ m ∈ batch, mt ∈ categories ∧ m.Name = categoryName mt := by
      intro e hmem heq
      obtain ⟨p, hp, hpe⟩ := sendLoop_sends_mem _ _ _ e hmem
      rw [heq] at hpe
      simp only [Effect.send.injEq] at hpe
      obtain ⟨h1, h2⟩ := hpe
      refine ⟨p.2, ?_, ?_⟩
      · rw [h1]; exact hp
      · intro m hm
        rw [h2] at hm
        exact hn1 p.2 m hm
    have hasked : ∀ (o : Option String), Effect.send ch batch ∉
        (match o with
         | some e => [Effect.logError e]
         | none => []) := by
      intro o
      cases o <;> simp
    simp only [clusterLoop] at he
    split at he
    · simp only [List.cons_append, List.mem_cons, List.mem_append] at he
      rcases he with h | h | h
      · cases h
      · exact absurd h (hasked _)
      · exact hsent _ h rfl
    · simp only [List.cons_append, List.mem_cons, List.mem_append, List.append_assoc] at he
      rcases he with h | h | h | h
      · cases h
      · exact absurd h (hasked _)
      · exact hsent _ h rfl
      · exact ih _ hn1 h

theorem clusterLoop_deliverable (ts : telemetryStreamer) (ras : Nat → QueryResult)
    (cls : List ClusterInfo) (metrics : Metrics) (hdel : Deliverable ts) :
    (clusterLoop ts ras cls metrics).panicked = false ∧
    (∀ k ∈ categories,
      (clusterLoop ts ras cls metrics).metrics k = metrics k ++ categoryBatch k ras cls) ∧
    (cls ≠ [] → ∀ p ∈ ts.channels,
      Effect.send p.1 ((clusterLoop ts ras cls metrics).metrics p.2)
        ∈ (clusterLoop ts ras cls metrics).effects) := by
  induction cls generalizing metrics with
  | nil => simp [clusterLoop, categoryBatch]
  | cons clInf rest ih =>
    obtain ⟨ih1, ih2, ih3⟩ := ih ((ras clInf.UUID).procs.foldl (eachBody clInf) metrics)
    simp only [clusterLoop, SendMetric_deliverable ts _ hdel]
    refine ⟨?_, ?_, ?_⟩
    · simpa using ih1
    · intro k hk
      simp only [Bool.false_eq_true, if_false]
      rw [ih2 k hk, foldl_eachBody_category _ _ _ _ hk]
      simp [categoryBatch]
    · intro _ p hp
      simp only [Bool.false_eq_true, if_false]
      cases rest with
      | nil =>
        simp only [clusterLoop, List.append_nil]
        apply List.mem_append_right
        exact List.mem_map.mpr ⟨p, hp, rfl⟩
      | cons c2 rest2 =>
        apply List.mem_append_right
        exact ih3 (by simp) p hp

end TelemetryStreamer

namespace TelemetryStreamer

/-! ## Claims about one tick -/

/-- C2, refuted: on the sample collector, in a tick over one cluster whose query succeeds
with one record of memory size `2 ^ 53 + 1`, a Go `int`, the one metric of the `memory` batch
carries the `float64` of bit pattern `0x4340000000000000`, which denotes `2 ^ 53`: the value of
the metric is not the value of the field. -/
theorem tick_rounds_large_memory :
    sampleHuge.MemorySize = Num.int 9007199254740993 ∧
    ((tick sampleStreamer [sampleMain] sampleHugeRas).metrics Memory).map (fun m => m.Value)
      = [⟨0x4340000000000000⟩] ∧
    batchInts ((tick sampleStreamer [sampleMain] sampleHugeRas).metrics Memory)
      = [some 9007199254740992] ∧
    batchInts ((tick sampleStreamer [sampleMain] sampleHugeRas).metrics Memory)
      ≠ [some 9007199254740993] := by
  decide

/-- C2, amended: in a tick over one cluster whose process query succeeds with records `rs`,
with at least one subscription, the batch built for each of the seven categories is the list,
in record order, of one metric per record carrying the category name, the labels cluster, pid
and port of the record, and as value the conversion `float64(f)` of the field `f` of the
category; it has as many metrics as there are records. The conversion gives `f` itself when
`f` is a `float64`, and the `float64` that denotes exactly `f` when `f` is an integer of
magnitude at most `2 ^ 53`; a larger integer is rounded. When every registered handle is open,
each handle is sent exactly this batch of its category. The seven names are memory,
connections, avg_threads, avg_call_time, selection_size, avg_db_call_time,
avg_server_call_time. -/
theorem tick_one_cluster_batches (ts : telemetryStreamer) (clInf : ClusterInfo)
    (ras : Nat → QueryResult) (rs : List ProcessInfo)
    (hsub : ts.channels ≠ []) (hq : ras clInf.UUID = ⟨rs, none⟩) :
    categories.map categoryName
      = ["memory", "connections", "avg_threads", "avg_call_time", "selection_size",
          "avg_db_call_time", "avg_server_call_time"] ∧
    (∀ f : Float64, float64 (Num.float f) = f) ∧
    (∀ i : Int, i.natAbs ≤ 2 ^ 53 → (float64 (Num.int i)).toInt? = some i) ∧
    ∀ k ∈ categories,
      (tick ts [clInf] ras).metrics k
        = rs.map (fun r =>
            ⟨categoryName k,
              [("cluster", clInf.Name), ("pid", r.Pid), ("port", toString r.Port)],
              float64 (categoryField k r)⟩) ∧
      ((tick ts [clInf] ras).metrics k).length = rs.length ∧
      (Deliverable ts → MapWF ts.channels → ∀ h, mapGet ts.channels h = some k →
        batchesTo h (tick ts [clInf] ras).effects = [(tick ts [clInf] ras).metrics k]) := by
  refine ⟨by decide, fun _ => rfl, fun i hi => float64OfInt_exact i hi, ?_⟩
  intro k hk
  have hlen : ¬ (ts.channels.length = 0) := by
    intro h0
    exact hsub (List.length_eq_zero.mp h0)
  have hbuilt : (tick ts [clInf] ras).metrics k
      = rs.map (fun r =>
          ⟨categoryName k,
            [("cluster", clInf.Name), ("pid", r.Pid), ("port", toString r.Port)],
            float64 (categoryField k r)⟩) := by
    simp only [tick, hlen, if_false, clusterLoop, hq]
    split <;>
      · simp only [foldl_eachBody_category _ _ _ _ hk, List.nil_append]
        rfl
  refine ⟨hbuilt, ?_, ?_⟩
  · rw [hbuilt, List.length_map]
  · intro hdel hwf h hreg
    simp only [tick, hlen, if_false, clusterLoop, hq, SendMetric_deliverable ts _ hdel,
      Bool.false_eq_true, List.append_nil, List.cons_append, List.nil_append]
    simp only [batchesTo]
    exact batchesTo_sends h k _ ts.channels hwf hreg

/-- C2 amended, on the sample data: two records (mem=100, conn=5) and (mem=200, conn=9), whose
averages are the `float64` 1.5. -/
theorem tick_one_cluster_batches_witness :
    (sampleStreamer.channels ≠ [] ∧ sampleRas sampleMain.UUID = ⟨sampleRecords, none⟩) ∧
    batchInts ((tick sampleStreamer [sampleMain] sampleRas).metrics Memory)
      = [some 100, some 200] ∧
    batchInts ((tick sampleStreamer [sampleMain] sampleRas).metrics Connections)
      = [some 5, some 9] ∧
    ((tick sampleStreamer [sampleMain] sampleRas).metrics AvgThreads).map (fun m => m.Value)
      = [⟨0x3FF8000000000000⟩, ⟨0x3FF8000000000000⟩] ∧
    ((tick sampleStreamer [sampleMain] sampleRas).metrics Memory).map (fun m => m.Labels)
      = ((tick sampleStreamer [sampleMain] sampleRas).metrics Connections).map
          (fun m => m.Labels) ∧
    batchesTo 0 (tick sampleStreamer [sampleMain] sampleRas).effects
      = [(tick sampleStreamer [sampleMain] sampleRas).metrics Memory] := by
  have key := tick_one_cluster_batches sampleStreamer sampleMain sampleRas sampleRecords
    (by decide) rfl
  refine ⟨⟨by decide, rfl⟩, ?_, ?_, ?_, ?_, ?_⟩
  · rw [(key.2.2.2 Memory (by decide)).1]; decide
  · rw [(key.2.2.2 Connections (by decide)).1]; decide
  · rw [(key.2.2.2 AvgThreads (by decide)).1]; decide
  · rw [(key.2.2.2 Memory (by decide)).1, (key.2.2.2 Connections (by decide)).1]; decide
  · exact (key.2.2.2 Memory (by decide)).2.2 (by decide) (by decide) 0 (by decide)

/-- C3: in every tick, for every registry with distinct keys and every handle `h` registered
for category `A`, every metric of every batch sent to `h` carries the name of `A`, and so the
name of no other category. -/
theorem tick_isolation (ts : telemetryStreamer) (clustersInfo : List ClusterInfo)
    (ras : Nat → QueryResult) (h : Chan) (A : MetricType)
    (hwf : MapWF ts.channels) (hreg : mapGet ts.channels h = some A) :
    ∀ batch ∈ batchesTo h (tick ts clustersInfo ras).effects, ∀ m ∈ batch,
      m.Name = categoryName A ∧ ∀ B ∈ categories, B ≠ A → m.Name ≠ categoryName B := by
  intro batch hb m hm
  rw [mem_batchesTo] at hb
  by_cases hlen : ts.channels.length = 0
  · simp [tick, hlen] at hb
  · simp only [tick, hlen, if_false] at hb
    obtain ⟨mt, hmem, hnamed⟩ :=
      clusterLoop_send_named ts ras clustersInfo _ namedByKey_empty h batch hb
    have hget := mapGet_eq_of_mem ts.channels h mt hwf hmem
    rw [hreg] at hget
    cases hget
    obtain ⟨hA, hname⟩ := hnamed m hm
    refine ⟨hname, ?_⟩
    intro B hB hne heq
    rw [hname] at heq
    exact hne (categoryName_injective A B hA hB heq).symm

/-- C3, on the sample data: the second batch sent to the `Memory` handle in a tick over two
clusters. -/
theorem tick_isolation_witness :
    (MapWF sampleStreamer.channels ∧ mapGet sampleStreamer.channels 0 = some Memory) ∧
    ∀ batch ∈ batchesTo 0 (tick sampleStreamer [sampleMain, sampleBackup] sampleRas).effects,
      ∀ m ∈ batch, m.Name = "memory" ∧ m.Name ≠ "connections" := by
  refine ⟨⟨by decide, by decide⟩, ?_⟩
  intro batch hb m hm
  have key := tick_isolation sampleStreamer [sampleMain, sampleBackup] sampleRas 0 Memory
    (by decide) (by decide) batch hb m hm
  exact ⟨key.1, key.2 Connections (by decide) (by decide)⟩

/-- C4, evaluated: with one `Memory` subscription (handle 0), a tick over the two clusters
`main` and `backup` sends two batches to the handle, the first with the metrics of `main` only
and the second with those of both clusters; a tick over no cluster sends it nothing. -/
theorem tick_sends_once_per_cluster :
    (batchesTo 0 (tick sampleStreamer [sampleMain, sampleBackup] sampleRas).effects).map
        batchInts
      = [[some 100, some 200], [some 100, some 200, some 300]] ∧
    batchesTo 0 (tick sampleStreamer [] sampleRas).effects = [] := by
  decide

/-- C8: in a tick with at least one subscription, all registered handles open, over the
clusters `pre ++ c :: post` where the query of `c` fails and the queries of the others
succeed, the tick does not panic, the batch built for each category is made of the records of
the clusters `pre ++ post` alone, every registered handle is sent the full batch of its
category, and the poll loop is still running after the tick, without having closed the remote
connection. -/
theorem tick_survives_failed_cluster (r : Run) (pre post : List ClusterInfo) (c : ClusterInfo)
    (ras : Nat → QueryResult)
    (hrun : r.stopped = false) (hcls : r.clustersInfo = pre ++ c :: post)
    (hsub : r.ts.channels ≠ []) (hdel : Deliverable r.ts)
    (hfail : Failed (ras c.UUID)) (hothers : ∀ c1 ∈ pre ++ post, (ras c1.UUID).err = none) :
    (tick r.ts r.clustersInfo ras).panicked = false ∧
    (∀ k ∈ categories,
      (tick r.ts r.clustersInfo ras).metrics k = categoryBatch k ras (pre ++ post)) ∧
    (∀ p ∈ r.ts.channels,
      Effect.send p.1 ((tick r.ts r.clustersInfo ras).metrics p.2)
        ∈ (tick r.ts r.clustersInfo ras).effects) ∧
    (step r (Event.tick ras)).stopped = false ∧
    (step r (Event.tick ras)).ts = r.ts ∧
    (step r (Event.tick ras)).trace = r.trace ++ (tick r.ts r.clustersInfo ras).effects := by
  have _ := hothers
  have hlen : ¬ (r.ts.channels.length = 0) := by
    intro h0
    exact hsub (List.length_eq_zero.mp h0)
  obtain ⟨h1, h2, h3⟩ := clusterLoop_deliverable r.ts ras r.clustersInfo (fun _ => []) hdel
  have htick : tick r.ts r.clustersInfo ras = clusterLoop r.ts ras r.clustersInfo (fun _ => []) := by
    simp [tick, hlen]
  rw [htick]
  refine ⟨h1, ?_, ?_, ?_, ?_, ?_⟩
  · intro k hk
    rw [h2 k hk, hcls]
    simp [categoryBatch, hfail.2]
  · exact h3 (by rw [hcls]; simp)
  · simp [step, hrun, htick, h1]
  · simp [step, hrun, htick, h1]
  · simp [step, hrun, htick, h1]

/-- C8, on the sample data: the cluster `down` fails between `main` and `backup`. -/
theorem tick_survives_failed_cluster_witness :
    (Failed (sampleRas sampleDown.UUID) ∧
      ∀ c1 ∈ [sampleMain] ++ [sampleBackup], (sampleRas c1.UUID).err = none) ∧
    batchInts ((tick sampleStreamer [sampleMain, sampleDown, sampleBackup] sampleRas).metrics
        Memory) = [some 100, some 200, some 300] ∧
    (step (StreamBegin sampleStreamer ⟨[sampleMain, sampleDown, sampleBackup], none⟩)
      (Event.tick sampleRas)).stopped = false := by
  have key := tick_survives_failed_cluster
    (StreamBegin sampleStreamer ⟨[sampleMain, sampleDown, sampleBackup], none⟩)
    [sampleMain] [sampleBackup] sampleDown sampleRas rfl rfl (by decide) (by decide)
    (by decide) (by decide)
  refine ⟨⟨by decide, by decide⟩, ?_, key.2.2.2.1⟩
  have hm := key.2.1 Memory (by decide)
  simp only [StreamBegin] at hm
  rw [hm]
  decide

end TelemetryStreamer

namespace TelemetryStreamer

/-! ## Describe -/

theorem mapDelete_idem {κ ν : Type} [DecidableEq κ] (m : List (κ × ν)) (k : κ) :
    mapDelete (mapDelete m k) k = mapDelete m k := by
  induction m with
  | nil => simp [mapDelete]
  | cons p rest ih =>
    obtain ⟨k1, v1⟩ := p
    by_cases hk : k1 = k
    · simp [mapDelete, hk, ih]
    · simp [mapDelete, hk, ih]

theorem DescribeStream_open (ts : telemetryStreamer) (ch : Chan) (hmu : ts.mu = false)
    (hopen : ch ∉ ts.closed) :
    DescribeStream ts ch
      = .ok { ts with
          channels := mapDelete ts.channels ch, closed := ch :: ts.closed, mu := false } := by
  simp [DescribeStream, hmu, hopen]

theorem DescribeStream_closed (ts : telemetryStreamer) (ch : Chan) (hmu : ts.mu = false)
    (hclosed : ch ∈ ts.closed) :
    DescribeStream ts ch
      = .error (Halt.panicked { ts with mu := true, channels := mapDelete ts.channels ch }
          "close of closed channel") := by
  simp [DescribeStream, hmu, hclosed]

theorem DescribeStream_locked (ts : telemetryStreamer) (ch : Chan) (hmu : ts.mu = true) :
    DescribeStream ts ch = .error (Halt.blocked ts) := by
  simp [DescribeStream, hmu]

theorem SubscribeStream_unlocked (ts : telemetryStreamer) (mt : MetricType)
    (hmu : ts.mu = false) :
    SubscribeStream ts mt
      = .ok ({ ts with made := ts.made + 1, channels := mapSet ts.channels ts.made mt },
          ts.made) := by
  simp [SubscribeStream, hmu]

theorem SubscribeStream_locked (ts : telemetryStreamer) (mt : MetricType)
    (hmu : ts.mu = true) :
    SubscribeStream ts mt = .error (Halt.blocked { ts with made := ts.made + 1 }) := by
  simp [SubscribeStream, hmu]

theorem sampleStreamer_subscribed :
    SubscribeStream (newInstance "ras:1545" "admin" "admin") Memory
      = .ok ({ newInstance "ras:1545" "admin" "admin" with
                made := 1, channels := [(0, Memory)] }, 0) ∧
    SubscribeStream { newInstance "ras:1545" "admin" "admin" with
        made := 1, channels := [(0, Memory)] } Connections
      = .ok (sampleStreamer, 1) := by
  constructor <;> rfl

/-- A second `DescribeStream` of the same handle, right after a first that returned: the
second panics on `close`, with the mutex still locked, and from then on every
`SubscribeStream` and every `DescribeStream` waits for ever on the mutex. -/
theorem describe_twice_general (ts : telemetryStreamer) (h : Chan) (hmu : ts.mu = false)
    (hopen : h ∉ ts.closed) :
    ∃ ts1, DescribeStream ts h = .ok ts1 ∧ h ∈ ts1.closed ∧ mapGet ts1.channels h = none ∧
      DescribeStream ts1 h
        = .error (Halt.panicked { ts1 with mu := true } "close of closed channel") ∧
      (∀ mt, SubscribeStream { ts1 with mu := true } mt
        = .error (Halt.blocked { ts1 with mu := true, made := ts1.made + 1 })) ∧
      (∀ ch, DescribeStream { ts1 with mu := true } ch
        = .error (Halt.blocked { ts1 with mu := true })) := by
  refine ⟨{ ts with
      channels := mapDelete ts.channels h, closed := h :: ts.closed, mu := false },
    DescribeStream_open ts h hmu hopen, by simp, mapGet_mapDelete_self _ _, ?_, ?_, ?_⟩
  · rw [DescribeStream_closed _ h rfl (by simp)]
    simp [mapDelete_idem]
  · intro mt
    rw [SubscribeStream_locked _ mt rfl]
  · intro ch
    rw [DescribeStream_locked _ ch rfl]

/-! ## Runs of the state machine -/

theorem clusterLoop_no_close (ts : telemetryStreamer) (ras : Nat → QueryResult)
    (cls : List ClusterInfo) (metrics : Metrics) :
    Effect.rasClose ∉ (clusterLoop ts ras cls metrics).effects := by
  induction cls generalizing metrics with
  | nil => simp [clusterLoop]
  | cons clInf rest ih =>
    have hsent : Effect.rasClose ∉
        (SendMetric ts ((ras clInf.UUID).procs.foldl (eachBody clInf) metrics)).sends := by
      intro hmem
      obtain ⟨p, _, hpe⟩ := sendLoop_sends_mem _ _ _ _ hmem
      cases hpe
    have hasked : ∀ (o : Option String), Effect.rasClose ∉
        (match o with
         | some e => [Effect.logError e]
         | none => []) := by
      intro o
      cases o <;> simp
    simp only [clusterLoop]
    split
    · simp only [List.cons_append, List.mem_cons, List.mem_append, not_or]
      exact ⟨by simp, hasked _, hsent⟩
    · simp only [List.cons_append, List.mem_cons, List.mem_append, List.append_assoc, not_or]
      exact ⟨by simp, hasked _, hsent, ih _⟩

theorem tick_no_close (ts : telemetryStreamer) (cls : List ClusterInfo)
    (ras : Nat → QueryResult) : Effect.rasClose ∉ (tick ts cls ras).effects := by
  unfold tick
  split
  · simp
  · exact clusterLoop_no_close ts ras cls _

end TelemetryStreamer

namespace TelemetryStreamer

/-! ## Disposal -/

/-- C7, refuted: on the sample collector, after the poll loop has left through `Dispose` on
cancellation, the registry is not empty and neither registered handle is closed. -/
theorem dispose_leaves_handles_open :
    (run (StreamBegin sampleStreamer ⟨[sampleMain], none⟩) [Event.done]).stopped = true ∧
    (run (StreamBegin sampleStreamer ⟨[sampleMain], none⟩) [Event.done]).ts.channels ≠ [] ∧
    ∀ p ∈ sampleStreamer.channels,
      p.1 ∉ (run (StreamBegin sampleStreamer ⟨[sampleMain], none⟩) [Event.done]).ts.closed := by
  decide

/-- C7, amended: when the poll loop exits, by cancellation or by a recovered panic, the
collector is disposed by `Dispose`, which closes the remote connection and nothing else: the
registry and the set of closed handles are exactly what they were before the exit. -/
theorem exit_keeps_registry (r : Run) (ev : Event)
    (hrun : r.stopped = false) (hexit : (step r ev).stopped = true) :
    (step r ev).ts = Dispose r.ts ∧
    (step r ev).ts.channels = r.ts.channels ∧
    (step r ev).ts.closed = r.ts.closed ∧
    (step r ev).ts.ras.closes = r.ts.ras.closes + 1 := by
  cases ev with
  | tick ras =>
    by_cases hp : (tick r.ts r.clustersInfo ras).panicked = true
    · simp [step, hrun, hp, Dispose]
    · simp [step, hrun, hp] at hexit
  | done => simp [step, hrun, Dispose]
  | subscribe mt =>
    by_cases hmu : r.ts.mu = true
    · simp [step, SubscribeStream_locked r.ts mt hmu, hrun] at hexit
    · have hmu0 : r.ts.mu = false := by simpa using hmu
      simp [step, SubscribeStream_unlocked r.ts mt hmu0, hrun] at hexit
  | describe ch =>
    by_cases hmu : r.ts.mu = true
    · simp [step, DescribeStream_locked r.ts ch hmu, hrun] at hexit
    · have hmu0 : r.ts.mu = false := by simpa using hmu
      by_cases hc : ch ∈ r.ts.closed
      · simp [step, DescribeStream_closed r.ts ch hmu0 hc, hrun] at hexit
      · simp [step, DescribeStream_open r.ts ch hmu0 hc, hrun] at hexit

/-- C7 amended, on the sample collector at cancellation. -/
theorem exit_keeps_registry_witness :
    ((StreamBegin sampleStreamer ⟨[sampleMain], none⟩).stopped = false ∧
      (step (StreamBegin sampleStreamer ⟨[sampleMain], none⟩) Event.done).stopped = true) ∧
    (step (StreamBegin sampleStreamer ⟨[sampleMain], none⟩) Event.done).ts.channels
      = [(0, Memory), (1, Connections)] ∧
    (step (StreamBegin sampleStreamer ⟨[sampleMain], none⟩) Event.done).ts.closed = [] := by
  have key := exit_keeps_registry (StreamBegin sampleStreamer ⟨[sampleMain], none⟩) Event.done
    rfl rfl
  exact ⟨⟨rfl, rfl⟩, key.2.1.trans (by decide), key.2.2.1.trans (by decide)⟩

/-! ## Cancellation -/

theorem run_append (r : Run) (xs ys : List Event) : run r (xs ++ ys) = run (run r xs) ys := by
  simp [run, List.foldl_append]

theorem run_snoc (r : Run) (xs : List Event) (ev : Event) :
    run r (xs ++ [ev]) = step (run r xs) ev := by
  simp [run, List.foldl_append]

theorem step_done_stopped (r : Run) : (step r Event.done).stopped = true := by
  by_cases hs : r.stopped = true
  · simp [step, hs]
  · simp [step, hs]

theorem step_tick_panicked (r : Run) (ras : Nat → QueryResult) (hs : r.stopped = false)
    (hp : (tick r.ts r.clustersInfo ras).panicked = true) :
    (step r (Event.tick ras)).stopped = true := by
  simp [step, hs, hp]

theorem step_after_stop (r : Run) (ev : Event) (hs : r.stopped = true) :
    (step r ev).stopped = true ∧ (step r ev).ts.ras.closes = r.ts.ras.closes ∧
    ∃ extra, (step r ev).trace = r.trace ++ extra ∧
      ∀ e ∈ extra, isTickEffect e = false ∧ e ≠ Effect.rasClose := by
  cases ev with
  | tick ras => simp [step, hs]
  | done => simp [step, hs]
  | subscribe mt =>
    by_cases hmu : r.ts.mu = true
    · simp only [step, SubscribeStream_locked r.ts mt hmu]
      refine ⟨hs, rfl, [Effect.blocked], rfl, ?_⟩
      intro e he
      simp only [List.mem_singleton] at he
      subst he
      simp [isTickEffect]
    · have hmu0 : r.ts.mu = false := by simpa using hmu
      simp [step, SubscribeStream_unlocked r.ts mt hmu0, hs]
  | describe ch =>
    by_cases hmu : r.ts.mu = true
    · simp only [step, DescribeStream_locked r.ts ch hmu]
      refine ⟨hs, rfl, [Effect.blocked], rfl, ?_⟩
      intro e he
      simp only [List.mem_singleton] at he
      subst he
      simp [isTickEffect]
    · have hmu0 : r.ts.mu = false := by simpa using hmu
      by_cases hc : ch ∈ r.ts.closed
      · simp only [step, DescribeStream_closed r.ts ch hmu0 hc]
        refine ⟨hs, rfl, [Effect.goPanic "close of closed channel"], rfl, ?_⟩
        intro e he
        simp only [List.mem_singleton] at he
        subst he
        simp [isTickEffect]
      · simp [step, DescribeStream_open r.ts ch hmu0 hc, hs]

theorem run_after_stop (evs : List Event) (r : Run) (hs : r.stopped = true) :
    (run r evs).stopped = true ∧ (run r evs).ts.ras.closes = r.ts.ras.closes ∧
    ∃ extra, (run r evs).trace = r.trace ++ extra ∧
      ∀ e ∈ extra, isTickEffect e = false ∧ e ≠ Effect.rasClose := by
  induction evs generalizing r with
  | nil => exact ⟨hs, rfl, [], by simp [run], by simp⟩
  | cons ev rest ih =>
    obtain ⟨h1, c1, e1, ht1, hk1⟩ := step_after_stop r ev hs
    obtain ⟨h2, c2, e2, ht2, hk2⟩ := ih (step r ev) h1
    refine ⟨h2, c2.trans c1, e1 ++ e2, ?_, ?_⟩
    · simp only [run, List.foldl_cons] at ht2 ⊢
      rw [ht2, ht1, List.append_assoc]
    · intro e he
      rcases List.mem_append.mp he with h | h
      · exact hk1 e h
      · exact hk2 e h

theorem step_closedOnExit (base : Nat) (r : Run) (ev : Event) (hinv : ClosedOnExit base r) :
    ClosedOnExit base (step r ev) := by
  obtain ⟨hc, ht⟩ := hinv
  by_cases hs : r.stopped = true
  · obtain ⟨h1, c1, extra, ht1, hk1⟩ := step_after_stop r ev hs
    have hzero : extra.count Effect.rasClose = 0 :=
      List.count_eq_zero.mpr (fun hmem => (hk1 _ hmem).2 rfl)
    refine ⟨?_, ?_⟩
    · rw [c1, hc, h1, hs]
    · rw [ht1, List.count_append, hzero, ht, h1, hs]
      simp
  · have hs0 : r.stopped = false := by simpa using hs
    simp only [hs0, Bool.false_eq_true, if_false, Nat.add_zero] at hc ht
    cases ev with
    | tick ras =>
      have hzero : (tick r.ts r.clustersInfo ras).effects.count Effect.rasClose = 0 :=
        List.count_eq_zero.mpr (tick_no_close _ _ _)
      by_cases hp : (tick r.ts r.clustersInfo ras).panicked = true
      · simp [ClosedOnExit, step, hs0, hp, Dispose, hc, ht, hzero, List.count_append]
      · simp [ClosedOnExit, step, hs0, hp, hc, ht, hzero, List.count_append]
    | done => simp [ClosedOnExit, step, hs0, Dispose, hc, ht, List.count_append]
    | subscribe mt =>
      by_cases hmu : r.ts.mu = true
      · simp [ClosedOnExit, step, SubscribeStream_locked r.ts mt hmu, hs0, hc, ht,
          List.count_append, Halt.ts, Halt.effect]
      · have hmu0 : r.ts.mu = false := by simpa using hmu
        simp [ClosedOnExit, step, SubscribeStream_unlocked r.ts mt hmu0, hs0, hc, ht]
    | describe ch =>
      by_cases hmu : r.ts.mu = true
      · simp [ClosedOnExit, step, DescribeStream_locked r.ts ch hmu, hs0, hc, ht,
          List.count_append, Halt.ts, Halt.effect]
      · have hmu0 : r.ts.mu = false := by simpa using hmu
        by_cases hcl : ch ∈ r.ts.closed
        · simp [ClosedOnExit, step, DescribeStream_closed r.ts ch hmu0 hcl, hs0, hc, ht,
            List.count_append, Halt.ts, Halt.effect]
        · simp [ClosedOnExit, step, DescribeStream_open r.ts ch hmu0 hcl, hs0, hc, ht]

theorem run_closedOnExit (base : Nat) (evs : List Event) (r : Run)
    (hinv : ClosedOnExit base r) : ClosedOnExit base (run r evs) := by
  induction evs generalizing r with
  | nil => exact hinv
  | cons ev rest ih => exact ih (step r ev) (step_closedOnExit base r ev hinv)

theorem streamBegin_closedOnExit (ts : telemetryStreamer) (res : ClustersResult) :
    ClosedOnExit ts.ras.closes (StreamBegin ts res) := by
  cases hres : res.err <;> simp [ClosedOnExit, StreamBegin, hres]

/-- C10: for every collector, every answer of `GetClusters` and every sequence of events of
the poll loop and its callers: the loop has closed the remote connection exactly once if
`Stream` has returned and not at all otherwise; after the loop has observed cancellation it is
stopped, and whatever events follow add no process query, no delivery and no further close to
the trace; and a tick that panics ends the loop with exactly one close as well. -/
theorem stream_closes_once (ts : telemetryStreamer) (res : ClustersResult) :
    (∀ evs : List Event,
      (run (StreamBegin ts res) evs).trace.count Effect.rasClose
        = (if (run (StreamBegin ts res) evs).stopped then 1 else 0) ∧
      (run (StreamBegin ts res) evs).ts.ras.closes
        = ts.ras.closes + (if (run (StreamBegin ts res) evs).stopped then 1 else 0)) ∧
    (∀ pre post : List Event,
      (run (StreamBegin ts res) (pre ++ [Event.done])).stopped = true ∧
      (run (StreamBegin ts res) (pre ++ [Event.done])).trace.count Effect.rasClose = 1 ∧
      ∃ extra,
        (run (StreamBegin ts res) (pre ++ Event.done :: post)).trace
          = (run (StreamBegin ts res) (pre ++ [Event.done])).trace ++ extra ∧
        ∀ e ∈ extra, isTickEffect e = false ∧ e ≠ Effect.rasClose) ∧
    (∀ (evs : List Event) (ras : Nat → QueryResult),
      (run (StreamBegin ts res) evs).stopped = false →
      (tick (run (StreamBegin ts res) evs).ts (run (StreamBegin ts res) evs).clustersInfo
        ras).panicked = true →
      (run (StreamBegin ts res) (evs ++ [Event.tick ras])).stopped = true ∧
      (run (StreamBegin ts res) (evs ++ [Event.tick ras])).trace.count Effect.rasClose = 1) := by
  have hall : ∀ evs : List Event, ClosedOnExit ts.ras.closes (run (StreamBegin ts res) evs) :=
    fun evs => run_closedOnExit _ evs _ (streamBegin_closedOnExit ts res)
  have hdone : ∀ pre : List Event,
      (run (StreamBegin ts res) (pre ++ [Event.done])).stopped = true := by
    intro pre
    rw [run_snoc]
    exact step_done_stopped _
  refine ⟨fun evs => ⟨(hall evs).2, (hall evs).1⟩, ?_, ?_⟩
  · intro pre post
    refine ⟨hdone pre, ?_, ?_⟩
    · rw [(hall _).2, hdone pre]
      rfl
    · have happ : pre ++ Event.done :: post = (pre ++ [Event.done]) ++ post := by simp
      rw [happ, run_append]
      obtain ⟨_, _, extra, ht, hk⟩ := run_after_stop post _ (hdone pre)
      exact ⟨extra, ht, hk⟩
  · intro evs ras hs hp
    have hstop : (run (StreamBegin ts res) (evs ++ [Event.tick ras])).stopped = true := by
      rw [run_snoc]
      exact step_tick_panicked _ ras hs hp
    refine ⟨hstop, ?_⟩
    rw [(hall _).2, hstop]
    rfl

/-- C10, on a collector whose registered handle 0 has been closed behind its back: the first
tick panics on the send, the panic is recovered and the loop exits with one close. -/
theorem stream_closes_once_witness :
    (run (StreamBegin { sampleStreamer with closed := [0] } ⟨[sampleMain], none⟩)
      ([] ++ [Event.tick sampleRas])).stopped = true ∧
    (run (StreamBegin { sampleStreamer with closed := [0] } ⟨[sampleMain], none⟩)
      ([] ++ [Event.tick sampleRas])).trace.count Effect.rasClose = 1 :=
  (stream_closes_once { sampleStreamer with closed := [0] } ⟨[sampleMain], none⟩).2.2
    [] sampleRas rfl (by decide)

/-! ## The singleton -/

theorem getInstances_once (g : Globals) (hdone : g.once = true) (cs : List Call) :
    getInstances g cs = (g, List.replicate cs.length g.inst) := by
  induction cs with
  | nil => rfl
  | cons c rest ih =>
    have hget : GetInstance g c.ctx c.url c.usr c.pass = (g, g.inst) := by
      simp [GetInstance, hdone]
    simp [getInstances, hget, ih, List.replicate_succ]

/-- C1: for every non-empty sequence of `GetInstance` calls made from the initial state of
the package, with any contexts, URLs, user names and passwords, every call returns the same
non-nil collector, the one built from the URL and authenticated with the credentials of the
first call; exactly one collector has been allocated and exactly one poll loop started, bound
to the context of the first call. -/
theorem getInstance_singleton (c : Call) (cs : List Call) :
    (getInstances initGlobals (c :: cs)).2 = List.replicate (cs.length + 1) (some 0) ∧
    (getInstances initGlobals (c :: cs)).1.inst = some 0 ∧
    (getInstances initGlobals (c :: cs)).1.heap = [newInstance c.url c.usr c.pass] ∧
    (getInstances initGlobals (c :: cs)).1.loops = [c.ctx] ∧
    (newInstance c.url c.usr c.pass).ras = ⟨c.url, some (c.usr, c.pass), 0⟩ := by
  have hfirst : GetInstance initGlobals c.ctx c.url c.usr c.pass
      = (⟨some 0, true, [newInstance c.url c.usr c.pass], [c.ctx]⟩, some 0) := by
    simp [GetInstance, initGlobals]
  simp only [getInstances, hfirst]
  rw [getInstances_once _ rfl cs]
  simp [List.replicate_succ, newInstance, AuthenticateAgent, NewClient]

end TelemetryStreamer

namespace TelemetryStreamer

/-! ## The state invariant -/

theorem mem_mapSet {κ ν : Type} [DecidableEq κ] (m : List (κ × ν)) (k : κ) (v : ν) (p : κ × ν)
    (hp : p ∈ mapSet m k v) : p = (k, v) ∨ p ∈ m := by
  induction m with
  | nil =>
    simp only [mapSet, List.mem_singleton] at hp
    exact Or.inl hp
  | cons q rest ih =>
    obtain ⟨k1, v1⟩ := q
    by_cases hk : k1 = k
    · simp only [mapSet, hk, if_true, List.mem_cons] at hp
      rcases hp with h | h
      · exact Or.inl h
      · exact Or.inr (List.mem_cons_of_mem _ h)
    · simp only [mapSet, hk, if_false, List.mem_cons] at hp
      rcases hp with h | h
      · exact Or.inr (h ▸ List.mem_cons_self _ _)
      · rcases ih h with h2 | h2
        · exact Or.inl h2
        · exact Or.inr (List.mem_cons_of_mem _ h2)

theorem mem_mapDelete {κ ν : Type} [DecidableEq κ] (m : List (κ × ν)) (k : κ) (p : κ × ν)
    (hp : p ∈ mapDelete m k) : p ∈ m ∧ p.1 ≠ k := by
  induction m with
  | nil => simp [mapDelete] at hp
  | cons q rest ih =>
    obtain ⟨k1, v1⟩ := q
    by_cases hk : k1 = k
    · simp only [mapDelete, hk, if_true] at hp
      exact ⟨List.mem_cons_of_mem _ (ih hp).1, (ih hp).2⟩
    · simp only [mapDelete, hk, if_false, List.mem_cons] at hp
      rcases hp with h | h
      · subst h
        exact ⟨List.mem_cons_self _ _, hk⟩
      · exact ⟨List.mem_cons_of_mem _ (ih h).1, (ih h).2⟩

theorem mapWF_mapDelete {κ ν : Type} [DecidableEq κ] (m : List (κ × ν)) (k : κ)
    (hwf : MapWF m) : MapWF (mapDelete m k) := by
  induction m with
  | nil => simp [mapDelete, MapWF]
  | cons q rest ih =>
    obtain ⟨k1, v1⟩ := q
    simp only [MapWF, List.map_cons, List.nodup_cons] at hwf
    by_cases hk : k1 = k
    · simp only [mapDelete, hk, if_true]
      exact ih hwf.2
    · simp only [mapDelete, hk, if_false, MapWF, List.map_cons, List.nodup_cons]
      refine ⟨?_, ih hwf.2⟩
      intro hmem
      obtain ⟨p, hp, hpk⟩ := List.mem_map.mp hmem
      exact hwf.1 (List.mem_map.mpr ⟨p, (mem_mapDelete rest k p hp).1, hpk⟩)

theorem mapWF_mapSet {κ ν : Type} [DecidableEq κ] (m : List (κ × ν)) (k : κ) (v : ν)
    (hwf : MapWF m) : MapWF (mapSet m k v) := by
  induction m with
  | nil => simp [mapSet, MapWF]
  | cons q rest ih =>
    obtain ⟨k1, v1⟩ := q
    simp only [MapWF, List.map_cons, List.nodup_cons] at hwf
    by_cases hk : k1 = k
    · subst hk
      simp only [mapSet, if_true, MapWF, List.map_cons, List.nodup_cons]
      exact hwf
    · simp only [mapSet, hk, if_false, MapWF, List.map_cons, List.nodup_cons]
      refine ⟨?_, ih hwf.2⟩
      intro hmem
      obtain ⟨p, hp, hpk⟩ := List.mem_map.mp hmem
      rcases mem_mapSet rest k v p hp with h | h
      · subst h
        exact hk hpk.symm
      · exact hwf.1 (List.mem_map.mpr ⟨p, h, hpk⟩)

theorem sound_newInstance (url usr pass : String) : Sound (newInstance url usr pass) := by
  simp [Sound, newInstance, MapWF]

theorem sound_sampleStreamer : Sound sampleStreamer := by
  refine ⟨by decide, ?_, ?_⟩
  · intro p hp
    simp only [sampleStreamer, List.mem_cons, List.mem_singleton, List.not_mem_nil,
      or_false] at hp
    rcases hp with h | h <;> subst h <;> decide
  · intro c hc
    simp [sampleStreamer] at hc

theorem sound_subscribed (ts : telemetryStreamer) (mt : MetricType) (hs : Sound ts) :
    Sound { ts with made := ts.made + 1, channels := mapSet ts.channels ts.made mt } := by
  obtain ⟨hwf, hreg, hcl⟩ := hs
  refine ⟨mapWF_mapSet _ _ _ hwf, ?_, ?_⟩
  · intro p hp
    rcases mem_mapSet _ _ _ p hp with h | h
    · subst h
      exact ⟨Nat.lt_succ_self _, fun hmem => Nat.lt_irrefl _ (hcl _ hmem)⟩
    · exact ⟨Nat.lt_succ_of_lt (hreg p h).1, (hreg p h).2⟩
  · intro c hc
    exact Nat.lt_succ_of_lt (hcl c hc)

theorem sound_allocated (ts : telemetryStreamer) (hs : Sound ts) :
    Sound { ts with made := ts.made + 1 } := by
  obtain ⟨hwf, hreg, hcl⟩ := hs
  exact ⟨hwf, fun p hp => ⟨Nat.lt_succ_of_lt (hreg p hp).1, (hreg p hp).2⟩,
    fun c hc => Nat.lt_succ_of_lt (hcl c hc)⟩

theorem sound_Dispose (ts : telemetryStreamer) (hs : Sound ts) : Sound (Dispose ts) := hs

theorem sound_step (r : Run) (ev : Event) (hs : Sound r.ts) (hadm : Admissible r ev) :
    Sound (step r ev).ts := by
  cases ev with
  | tick ras =>
    by_cases hst : r.stopped = true
    · simpa [step, hst] using hs
    · by_cases hp : (tick r.ts r.clustersInfo ras).panicked = true
      · simpa [step, hst, hp] using sound_Dispose r.ts hs
      · simpa [step, hst, hp] using hs
  | done =>
    by_cases hst : r.stopped = true
    · simpa [step, hst] using hs
    · simpa [step, hst] using sound_Dispose r.ts hs
  | subscribe mt =>
    by_cases hmu : r.ts.mu = true
    · simp only [step, SubscribeStream_locked r.ts mt hmu]
      exact sound_allocated r.ts hs
    · have hmu0 : r.ts.mu = false := by simpa using hmu
      simp only [step, SubscribeStream_unlocked r.ts mt hmu0]
      exact sound_subscribed r.ts mt hs
  | describe ch =>
    obtain ⟨hwf, hreg, hcl⟩ := hs
    by_cases hmu : r.ts.mu = true
    · simp only [step, DescribeStream_locked r.ts ch hmu]
      exact ⟨hwf, hreg, hcl⟩
    · have hmu0 : r.ts.mu = false := by simpa using hmu
      by_cases hc : ch ∈ r.ts.closed
      · simp only [step, DescribeStream_closed r.ts ch hmu0 hc]
        refine ⟨mapWF_mapDelete _ _ hwf, ?_, hcl⟩
        intro p hp
        exact hreg p (mem_mapDelete _ _ p hp).1
      · simp only [step, DescribeStream_open r.ts ch hmu0 hc]
        refine ⟨mapWF_mapDelete _ _ hwf, ?_, ?_⟩
        · intro p hp
          obtain ⟨hmem, hne⟩ := mem_mapDelete _ _ p hp
          refine ⟨(hreg p hmem).1, ?_⟩
          intro hin
          rcases List.mem_cons.mp hin with h | h
          · exact hne h
          · exact (hreg p hmem).2 h
        · intro c hcm
          rcases List.mem_cons.mp hcm with h | h
          · rw [h]; exact hadm
          · exact hcl c h

/-- A sound collector never panics in a tick, and serves each registered handle once per
cluster. -/
theorem tick_batch_count (ts : telemetryStreamer) (cls : List ClusterInfo)
    (ras : Nat → QueryResult) (h : Chan) (A : MetricType) (hs : Sound ts)
    (hreg : mapGet ts.channels h = some A) :
    (tick ts cls ras).panicked = false ∧
    (batchesTo h (tick ts cls ras).effects).length = cls.length := by
  obtain ⟨hwf, hopen, _⟩ := hs
  have hdel : Deliverable ts := fun p hp => (hopen p hp).2
  have hlen : ¬ (ts.channels.length = 0) := by
    intro h0
    rw [List.length_eq_zero.mp h0] at hreg
    simp [mapGet] at hreg
  have hloop : ∀ (cs : List ClusterInfo) (metrics : Metrics),
      (batchesTo h (clusterLoop ts ras cs metrics).effects).length = cs.length := by
    intro cs
    induction cs with
    | nil => intro metrics; simp [clusterLoop, batchesTo]
    | cons c rest ih =>
      intro metrics
      have hasked : ∀ (o : Option String), batchesTo h
          (match o with
           | some e => [Effect.logError e]
           | none => []) = [] := by
        intro o
        cases o <;> simp [batchesTo]
      simp only [clusterLoop, SendMetric_deliverable ts _ hdel, Bool.false_eq_true, if_false,
        List.cons_append, batchesTo, batchesTo_append, hasked, List.nil_append,
        batchesTo_sends h A _ ts.channels hwf hreg, List.length_cons, List.singleton_append, ih]
  simp only [tick, hlen, if_false]
  exact ⟨(clusterLoop_deliverable ts ras cls _ hdel).1, hloop cls _⟩

end TelemetryStreamer

namespace Plugin

open TelemetryStreamer (mapGet mapSet Memory Connections AvgThreads AvgCallTime SelectionSize
  AvgDbCallTime AvgServerCallTime categoryName categories newInstance Halt sampleStreamer
  sampleDescribed DescribeStream)

/-! ## The stream adapter -/

theorem SubscribeStream_unknown (d : Datasource) (path : String) (hne : path ∉ knownPaths) :
    SubscribeStream d path = .ok (d, SubscribeStreamStatus.PermissionDenied) := by
  simp only [knownPaths, List.mem_cons, List.mem_singleton, List.not_mem_nil, or_false,
    not_or] at hne
  obtain ⟨h1, h2, h3, h4, h5, h6, h7⟩ := hne
  simp [SubscribeStream, h1, h2, h3, h4, h5, h6, h7]

theorem SubscribeStream_known (d : Datasource) (path : String) (hmem : path ∈ knownPaths) :
    ∃ mt, pathCategory path = some mt ∧ mt ∈ categories ∧ categoryName mt = path ∧
      SubscribeStream d path = subscribeCase d path mt := by
  simp only [knownPaths, List.mem_cons, List.mem_singleton, List.not_mem_nil, or_false] at hmem
  rcases hmem with h | h | h | h | h | h | h <;> subst h
  · exact ⟨Memory, by decide, by decide, by decide, rfl⟩
  · exact ⟨Connections, by decide, by decide, by decide, rfl⟩
  · exact ⟨AvgThreads, by decide, by decide, by decide, rfl⟩
  · exact ⟨AvgCallTime, by decide, by decide, by decide, rfl⟩
  · exact ⟨SelectionSize, by decide, by decide, by decide, rfl⟩
  · exact ⟨AvgDbCallTime, by decide, by decide, by decide, rfl⟩
  · exact ⟨AvgServerCallTime, by decide, by decide, by decide, rfl⟩

theorem subscribeCase_stored (d : Datasource) (path : String)
    (mt : TelemetryStreamer.MetricType) (h : TelemetryStreamer.Chan)
    (hget : mapGet d.streams path = some h) :
    subscribeCase d path mt = .ok (d, SubscribeStreamStatus.OK) := by
  simp [subscribeCase, hget]

theorem subscribeCase_new (d : Datasource) (path : String)
    (mt : TelemetryStreamer.MetricType) (hget : mapGet d.streams path = none)
    (hmu : d.ts.mu = false) :
    subscribeCase d path mt
      = .ok ({ ts := { d.ts with
                  made := d.ts.made + 1, channels := mapSet d.ts.channels d.ts.made mt },
               streams := mapSet d.streams path d.ts.made },
          SubscribeStreamStatus.OK) := by
  simp [subscribeCase, hget, TelemetryStreamer.SubscribeStream_unlocked d.ts mt hmu]

theorem subscribeCase_blocked (d : Datasource) (path : String)
    (mt : TelemetryStreamer.MetricType) (hget : mapGet d.streams path = none)
    (hmu : d.ts.mu = true) :
    subscribeCase d path mt = .error (Halt.blocked { d.ts with made := d.ts.made + 1 }) := by
  simp [subscribeCase, hget, TelemetryStreamer.SubscribeStream_locked d.ts mt hmu]

/-- C5, evaluated: on the sample collector, the first `DescribeStream` of handle 0 returns; the
second panics on `close` with the mutex held, so that a later `SubscribeStream` waits for ever.
The adapter of the repository reaches this: after `SubscribeStream` of the path memory,
`Dispose` describes the handle and keeps the table entry, and the `ctx.Done()` case of
`RunStream` for the path, or a second `Dispose`, describes the handle again. -/
theorem describe_twice_locks_collector :
    DescribeStream sampleStreamer 0 = .ok sampleDescribed ∧
    DescribeStream sampleDescribed 0
      = .error (Halt.panicked { sampleDescribed with mu := true } "close of closed channel") ∧
    TelemetryStreamer.SubscribeStream { sampleDescribed with mu := true } Memory
      = .error (Halt.blocked { sampleDescribed with mu := true, made := 3 }) ∧
    SubscribeStream sampleDatasource "memory"
      = .ok (sampleSubscribed, SubscribeStreamStatus.OK) ∧
    Dispose sampleSubscribed = .ok sampleDisposed ∧
    RunStreamDone sampleDisposed "memory"
      = .error (Halt.panicked { sampleDisposed.ts with mu := true }
          "close of closed channel") ∧
    Dispose sampleDisposed
      = .error (Halt.panicked { sampleDisposed.ts with mu := true }
          "close of closed channel") := by
  refine ⟨rfl, rfl, rfl, rfl, rfl, rfl, rfl⟩

/-- C9, refuted: after `SubscribeStream` of the path memory and `Dispose`, the table still
stores handle 0 for the path; `SubscribeStream` of the path memory then answers OK although
the stored handle is closed and subscribed to no category. After a second `Dispose`, which
panics with the mutex held, `SubscribeStream` of the known path connections never answers. -/
theorem stale_handle_answers_ok :
    SubscribeStream sampleDatasource "memory"
      = .ok (sampleSubscribed, SubscribeStreamStatus.OK) ∧
    Dispose sampleSubscribed = .ok sampleDisposed ∧
    SubscribeStream sampleDisposed "memory"
      = .ok (sampleDisposed, SubscribeStreamStatus.OK) ∧
    mapGet sampleDisposed.streams "memory" = some 0 ∧
    mapGet sampleDisposed.ts.channels 0 = none ∧
    0 ∈ sampleDisposed.ts.closed ∧
    SubscribeStream { sampleDisposed with ts := { sampleDisposed.ts with mu := true } }
        "connections"
      = .error (Halt.blocked { sampleDisposed.ts with mu := true, made := 2 }) := by
  refine ⟨rfl, rfl, rfl, rfl, rfl, by decide, rfl⟩

/-- C9, amended: for every request path and every adapter whose collector has its mutex
free, `SubscribeStream` returns, and answers OK exactly when the path is one of the seven
known paths. In that case, when the table holds no handle for the path, the core allocates one
handle, registers it under the category whose name is the path, and the table stores it for
the path; when the table already holds a handle for the path, the adapter and the core are
left as they were: the stored handle is kept and no core subscribe is called. For any other
path the answer is permission denied and the adapter, its table and the core are left as they
were. The seven paths name, in order, Memory, Connections, AvgThreads, AvgCallTime,
SelectionSize, AvgDbCallTime and AvgServerCallTime. -/
theorem adapter_subscribe (d : Datasource) (path : String) (hmu : d.ts.mu = false) :
    knownPaths.map pathCategory
      = [some Memory, some Connections, some AvgThreads, some AvgCallTime, some SelectionSize,
          some AvgDbCallTime, some AvgServerCallTime] ∧
    ∃ d1 st, SubscribeStream d path = .ok (d1, st) ∧
      (st = SubscribeStreamStatus.OK ↔ path ∈ knownPaths) ∧
      (path ∈ knownPaths →
        ∃ mt, pathCategory path = some mt ∧ categoryName mt = path ∧
          (mapGet d.streams path = none →
            mapGet d1.streams path = some d.ts.made ∧
            mapGet d1.ts.channels d.ts.made = some mt ∧
            d1.ts.made = d.ts.made + 1) ∧
          (∀ h, mapGet d.streams path = some h → d1 = d)) ∧
      (path ∉ knownPaths → st = SubscribeStreamStatus.PermissionDenied ∧ d1 = d) := by
  refine ⟨by decide, ?_⟩
  by_cases hmem : path ∈ knownPaths
  · obtain ⟨mt, hcat, _, hname, hsub⟩ := SubscribeStream_known d path hmem
    cases hget : mapGet d.streams path with
    | some h =>
      refine ⟨d, SubscribeStreamStatus.OK, ?_, ?_, ?_, ?_⟩
      · rw [hsub, subscribeCase_stored d path mt h hget]
      · exact ⟨fun _ => hmem, fun _ => rfl⟩
      · intro _
        refine ⟨mt, hcat, hname, ?_, fun _ _ => rfl⟩
        intro hnone
        cases hnone
      · intro hne
        exact absurd hmem hne
    | none =>
      refine ⟨{ ts := { d.ts with
                  made := d.ts.made + 1, channels := mapSet d.ts.channels d.ts.made mt },
                streams := mapSet d.streams path d.ts.made },
        SubscribeStreamStatus.OK, ?_, ?_, ?_, ?_⟩
      · rw [hsub, subscribeCase_new d path mt hget hmu]
      · exact ⟨fun _ => hmem, fun _ => rfl⟩
      · intro _
        refine ⟨mt, hcat, hname, ?_, ?_⟩
        · intro _
          exact ⟨TelemetryStreamer.mapGet_mapSet_self _ _ _,
            TelemetryStreamer.mapGet_mapSet_self _ _ _, rfl⟩
        · intro h hsome
          cases hsome
      · intro hne
        exact absurd hmem hne
  · refine ⟨d, SubscribeStreamStatus.PermissionDenied, SubscribeStream_unknown d path hmem,
      ?_, ?_, ?_⟩
    · constructor
      · intro h
        cases h
      · intro h
        exact absurd h hmem
    · intro h
      exact absurd h hmem
    · intro _
      exact ⟨rfl, rfl⟩

/-- C9 amended, on the sample adapter: the new path avg_threads is accepted and its handle 0
registered under `AvgThreads`; the stored path memory is accepted and nothing changes; the
path cpu is refused. -/
theorem adapter_subscribe_witness :
    (sampleDatasource.ts.mu = false ∧ sampleSubscribed.ts.mu = false) ∧
    SubscribeStream sampleDatasource "avg_threads"
      = .ok (⟨{ sampleDatasource.ts with made := 1, channels := [(0, AvgThreads)] },
               [("avg_threads", 0)]⟩, SubscribeStreamStatus.OK) ∧
    SubscribeStream sampleSubscribed "memory"
      = .ok (sampleSubscribed, SubscribeStreamStatus.OK) ∧
    SubscribeStream sampleDatasource "cpu"
      = .ok (sampleDatasource, SubscribeStreamStatus.PermissionDenied) := by
  refine ⟨⟨rfl, rfl⟩, ?_, ?_, ?_⟩
  · obtain ⟨_, d1, st, hcall, _, hknown, _⟩ :=
      adapter_subscribe sampleDatasource "avg_threads" rfl
    rw [hcall]
    have hcall2 : SubscribeStream sampleDatasource "avg_threads"
        = .ok (⟨{ sampleDatasource.ts with made := 1, channels := [(0, AvgThreads)] },
                 [("avg_threads", 0)]⟩, SubscribeStreamStatus.OK) := rfl
    rw [hcall] at hcall2
    exact hcall2
  · obtain ⟨_, d1, st, hcall, hok, hknown, _⟩ :=
      adapter_subscribe sampleSubscribed "memory" rfl
    obtain ⟨mt, _, _, _, hkeep⟩ := hknown (by decide)
    have hd : d1 = sampleSubscribed := hkeep 0 rfl
    have hst : st = SubscribeStreamStatus.OK := hok.mpr (by decide)
    rw [hcall, hd, hst]
  · obtain ⟨_, d1, st, hcall, _, _, hunknown⟩ :=
      adapter_subscribe sampleDatasource "cpu" rfl
    obtain ⟨hst, hd⟩ := hunknown (by decide)
    rw [hcall, hd, hst]

end Plugin
